import Mathlib

/-!
# downloadtrace: the single-use download gate

A shallow embedding of `main.go` (the handler `indexHandler`) together with the parts of
the Go libraries the handler relies on (`net/http` headers and error replies,
`net/textproto` key canonicalisation, `net/url` parsing, `httputil.ReverseProxy`,
`time` formatting, the datastore transaction).  Collaborators are explicit state
(`Datastore`, `ObjectStore`) and an explicit per-request environment (`Env`), which also
holds the process's local time zone and the storage transport as a function of the URL
requested.

The handler is cut at its four interactions with shared state
(pre-check read, object check, grant transaction, stream) so that requests can be
interleaved; `indexHandler` runs the four pieces back to back.

Not modelled: release of the two clients (`Close`), the reflection that extracts the
storage client's transport, the proxy's removal of hop-by-hop headers, response trailers,
1xx and protocol-upgrade replies of the proxy, transaction retries on commit conflicts
(the transaction is one atomic step).
Go strings are taken to be valid UTF-8 (Lean `String`).
-/

namespace DownloadTrace

/-! ## Go strings and errors -/

/-- Go's builtin `len` on a string: the number of bytes (of the UTF-8 encoding). -/
def len (s : String) : Nat := s.utf8ByteSize

/-- Go `error` values as far as the handler tells them apart: it compares with the two
sentinels by `==`, everything else is an arbitrary error carrying a message. -/
inductive GoError where
  | ErrNoSuchEntity
  | ErrObjectNotExist
  | other (msg : String)
deriving DecidableEq, Repr

deriving instance DecidableEq for Except

/-- The text `%v` prints for an error. -/
def GoError.text : GoError → String
  | .ErrNoSuchEntity => "datastore: no such entity"
  | .ErrObjectNotExist => "storage: object doesn't exist"
  | .other msg => msg

/-! ## Association lists standing for Go maps and keyed stores -/

/-- Index a map: the value stored under `k`, if any. -/
def assocGet {β : Type} : List (String × β) → String → Option β
  | [], _ => none
  | (k', v) :: rest, k => if k' = k then some v else assocGet rest k

/-- Go's `delete(m, k)`. -/
def assocDel {β : Type} (m : List (String × β)) (k : String) : List (String × β) :=
  m.filter (fun p => decide (p.1 ≠ k))

/-- Go's `m[k] = v`. -/
def assocPut {β : Type} (m : List (String × β)) (k : String) (v : β) : List (String × β) :=
  assocDel m k ++ [(k, v)]

/-! ## net/textproto and net/http headers -/

/-- The token bytes of `validHeaderFieldByte` (RFC 7230 tchar). -/
def validHeaderFieldByte (c : Nat) : Bool :=
  (48 ≤ c && c ≤ 57) || (65 ≤ c && c ≤ 90) || (97 ≤ c && c ≤ 122) ||
    [33, 35, 36, 37, 38, 39, 42, 43, 45, 46, 94, 95, 96, 124, 126].contains c

/-- The canonicalising loop of `canonicalMIMEHeaderKey`: upper case at the start and
after each dash (45), lower case elsewhere; `upper` is the loop's flag. -/
def canonicalBytes : Bool → List Nat → List Nat
  | _, [] => []
  | upper, c :: cs =>
    let c' :=
      if upper && (97 ≤ c && c ≤ 122) then c - 32
      else if !upper && (65 ≤ c && c ≤ 90) then c + 32
      else c
    c' :: canonicalBytes (c' == 45) cs

/-- Go's `textproto.CanonicalMIMEHeaderKey`: a key made of token bytes only is
canonicalised, any other key is returned unchanged. -/
def CanonicalMIMEHeaderKey (s : String) : String :=
  let a := s.data.map Char.toNat
  if a.all validHeaderFieldByte then String.mk ((canonicalBytes true a).map Char.ofNat) else s

/-- Go's `http.Header`, a `map[string][]string`. -/
abbrev Header := List (String × List String)

/-- Go's `Header.Values`: the values under the canonical form of `key`. -/
def Header.Values (h : Header) (key : String) : List String :=
  (assocGet h (CanonicalMIMEHeaderKey key)).getD []

/-- Go's `Header.Get`: the first value under the canonical form of `key`, or `""`. -/
def Header.Get (h : Header) (key : String) : String :=
  match Header.Values h key with
  | [] => ""
  | v :: _ => v

/-- Go's `Header.Del`: `delete(h, CanonicalMIMEHeaderKey(key))`. -/
def Header.Del (h : Header) (key : String) : Header :=
  assocDel h (CanonicalMIMEHeaderKey key)

/-- Go's `Header.Set`: `h[CanonicalMIMEHeaderKey(key)] = []string{value}`. -/
def Header.Set (h : Header) (key value : String) : Header :=
  assocPut h (CanonicalMIMEHeaderKey key) [value]

/-- Go's `Header.Add`: `h[key] = append(h[key], value)` at the canonical key. -/
def Header.Add (h : Header) (key value : String) : Header :=
  assocPut h (CanonicalMIMEHeaderKey key) (Header.Values h key ++ [value])

/-- The `copyHeader` of `net/http/httputil`: every value of every key of `src` is
added to `dst`. -/
def copyHeader (dst src : Header) : Header :=
  src.foldl (fun d p => p.2.foldl (fun d' v => Header.Add d' p.1 v) d) dst

/-- An HTTP response: what a handler wrote to its `ResponseWriter`, or what the
transport returned (`http.Response`). -/
structure Response where
  StatusCode : Nat
  Header : Header
  Body : String
deriving DecidableEq, Repr

/-- Go's `http.Error` on a writer whose header map is `h`. -/
def httpError (h : Header) (error : String) (code : Nat) : Response :=
  { StatusCode := code
    Header := Header.Set (Header.Set (Header.Del h "Content-Length")
      "Content-Type" "text/plain; charset=utf-8") "X-Content-Type-Options" "nosniff"
    Body := error ++ "\n" }

/-- Go's `http.NotFound`. -/
def httpNotFound (h : Header) : Response := httpError h "404 page not found" 404

/-! ## net/url -/

/-- The UTF-8 bytes of a character. -/
def utf8Encode (c : Char) : List Nat :=
  let n := c.toNat
  if n < 128 then [n]
  else if n < 2048 then [192 + n / 64, 128 + n % 64]
  else if n < 65536 then [224 + n / 4096, 128 + n / 64 % 64, 128 + n % 64]
  else [240 + n / 262144, 128 + n / 4096 % 64, 128 + n / 64 % 64, 128 + n % 64]

/-- The bytes of a Go string. -/
def goBytes (s : String) : List Nat := (s.data.map utf8Encode).flatten

/-- Go's `url.URL`, the fields `url.Parse` fills for the handler's URLs.  `Path` and
`Fragment` are unescaped and therefore kept as bytes; `RawQuery` is the text after the
first question mark, as written. -/
structure URL where
  Scheme : String
  Host : String
  Path : List Nat
  RawQuery : String
  Fragment : List Nat
deriving DecidableEq, Repr

/-- The `ishex` of `net/url`. -/
def ishex (c : Char) : Bool :=
  let n := c.toNat
  (48 ≤ n && n ≤ 57) || (97 ≤ n && n ≤ 102) || (65 ≤ n && n ≤ 70)

/-- The `unhex` of `net/url`. -/
def unhex (c : Char) : Nat :=
  let n := c.toNat
  if 48 ≤ n ∧ n ≤ 57 then n - 48
  else if 97 ≤ n ∧ n ≤ 102 then n - 97 + 10
  else if 65 ≤ n ∧ n ≤ 70 then n - 65 + 10
  else 0

/-- The `unescape` of `net/url` on a path or fragment: a percent sign must be followed by
two hex digits and stands for the byte they spell; every other character stands for
itself.  `pending` counts the hex digits still owed after a percent sign and `acc` holds
the value of those read; `none` is Go's `EscapeError`. -/
def unescape : Nat → Nat → List Char → Option (List Nat)
  | 0, _, [] => some []
  | _ + 1, _, [] => none
  | 0, _, c :: cs =>
    if c = '%' then unescape 2 0 cs
    else (unescape 0 0 cs).map (fun rest => utf8Encode c ++ rest)
  | n + 1, acc, c :: cs =>
    if ishex c then
      if n = 0 then (unescape 0 0 cs).map (fun rest => (acc * 16 + unhex c) :: rest)
      else unescape n (acc * 16 + unhex c) cs
    else none

/-- The `stringContainsCTLByte` of `net/url`. -/
def containsCTLByte (s : List Char) : Bool :=
  s.any (fun c => c.toNat < 32 || c.toNat == 127)

/-- Go's `url.Parse`, for texts that start with `https://` as those the handler builds.
The fragment is cut off at the first `#`; what is left must hold no control byte; the
query is cut off at the first `?`; the host runs up to the next `/` and the rest is the
path, which like the fragment must unescape. -/
def urlParse (rawURL : String) : Except GoError URL :=
  let u := rawURL.data.takeWhile (fun c => c ≠ '#')
  let frag := (rawURL.data.dropWhile (fun c => c ≠ '#')).drop 1
  if containsCTLByte u then .error (.other "net/url: invalid control character in URL")
  else
    let rest := (u.takeWhile (fun c => c ≠ '?')).drop 8
    let rawQuery := (u.dropWhile (fun c => c ≠ '?')).drop 1
    let host := rest.takeWhile (fun c => c ≠ '/')
    match unescape 0 0 (rest.dropWhile (fun c => c ≠ '/')) with
    | none => .error (.other "invalid URL escape")
    | some path =>
      match unescape 0 0 frag with
      | none => .error (.other "invalid URL escape")
      | some fragment =>
        .ok { Scheme := "https", Host := String.mk host, Path := path,
              RawQuery := String.mk rawQuery, Fragment := fragment }

/-! ## time -/

/-- The three-letter day names of Go's `time` package, Sunday first. -/
def shortDayNames : List String := ["Sun", "Mon", "Tue", "Wed", "Thu", "Fri", "Sat"]

/-- The three-letter month names of Go's `time` package. -/
def shortMonthNames : List String :=
  ["Jan", "Feb", "Mar", "Apr", "May", "Jun", "Jul", "Aug", "Sep", "Oct", "Nov", "Dec"]

/-- A number below 100 in two digits. -/
def pad2 (n : Nat) : String :=
  String.mk [Char.ofNat (48 + n / 10 % 10), Char.ofNat (48 + n % 10)]

/-- A number below 10000 in four digits. -/
def pad4 (n : Nat) : String := pad2 (n / 100) ++ pad2 (n % 100)

/-- The calendar date (year, month 1-12, day) of a day counted from 1 January 1970. -/
def civilFromDays (days : Int) : Int × Nat × Nat :=
  let z := days + 719468
  let era := z / 146097
  let doe := (z % 146097).toNat
  let yoe := (doe - doe / 1460 + doe / 36524 - doe / 146096) / 365
  let doy := doe - (365 * yoe + yoe / 4 - yoe / 100)
  let mp := (5 * doy + 2) / 153
  let d := doy - (153 * mp + 2) / 5 + 1
  let m := if mp < 10 then mp + 3 else mp - 9
  let y := (yoe : Int) + era * 400 + (if m ≤ 2 then 1 else 0)
  (y, m, d)

/-- Go's `t.Format(http.TimeFormat)`, layout `Mon, 02 Jan 2006 15:04:05 GMT`, for the time
`t` at `unix` seconds after the epoch in a location `offset` seconds east of UTC: the
fields are those of the wall clock of `t` in its own location, and `GMT` is literal text
of the layout. -/
def formatHTTPTime (unix offset : Int) : String :=
  let wall := unix + offset
  let days := wall / 86400
  let secs := (wall % 86400).toNat
  let date := civilFromDays days
  shortDayNames.getD ((days + 4) % 7).toNat "" ++ ", " ++ pad2 date.2.2 ++ " " ++
    shortMonthNames.getD (date.2.1 - 1) "" ++ " " ++ pad4 date.1.toNat ++ " " ++
    pad2 (secs / 3600) ++ ":" ++ pad2 (secs / 60 % 60) ++ ":" ++ pad2 (secs % 60) ++ " GMT"

/-! ## The data model and the collaborators -/

/-- The Grant Record of `main.go`; `DownloadedAt` is an instant (Unix time). -/
structure DownloadLogEntry where
  Country : String
  Region : String
  DownloadedAt : Nat
deriving DecidableEq, Repr

/-- The Record Store: entities of kind `DownloadLogEntry`, keyed by name. -/
abbrev Datastore := List (String × DownloadLogEntry)

/-- The Object Store: the (bucket, object name) pairs that exist. -/
abbrev ObjectStore := List (String × String)

/-- The request fields the handler reads.  `Query` holds the parsed query pairs in the
order they appear in the URL. -/
structure Request where
  Method : String
  Path : String
  Query : List (String × String)
  Header : Header
deriving DecidableEq, Repr

/-- Go's `url.Values.Get`: the first value of `key`, or `""`. -/
def queryGet (q : List (String × String)) (key : String) : String :=
  (assocGet q key).getD ""

/-- Everything outside the two stores that one run of the handler depends on: the
process environment, the clock, the failures of the collaborators (`none` is Go's `nil`;
a failure carries the error's message), the offset of the process's local time zone at
the epoch in seconds east of UTC, and the answer of the storage client's transport to a
`GET` of a URL. -/
structure Env where
  GOOGLE_CLOUD_PROJECT : String
  BUCKET_NAME : String
  now : Nat
  datastoreNewClient : Option String
  datastoreGet : Option String
  storageNewClient : Option String
  attrs : Option String
  txGet : Option String
  txPut : Option String
  commit : Option String
  zoneOffset : Int
  roundTrip : URL → Except String Response

/-- The calls the handler makes to its collaborators, in the order made. -/
inductive Event where
  | datastoreNewClient (projectID : String)
  | datastoreGet (key : String)
  | storageNewClient
  | attrs (bucket object : String)
  | runInTransaction (key : String)
  | txGet (key : String)
  | txPut (key : String) (entry : DownloadLogEntry)
  | commit
  | rollback
  | roundTrip (url : URL)
deriving DecidableEq, Repr

/-- Go's `datastoreClient.Get` / `tx.Get` into a struct: `nil` when the entity exists,
`ErrNoSuchEntity` when it does not, the injected failure otherwise. -/
def datastoreGet (fault : Option String) (store : Datastore) (key : String) : Option GoError :=
  match fault with
  | some msg => some (.other msg)
  | none =>
    match assocGet store key with
    | some _ => none
    | none => some .ErrNoSuchEntity

/-- Go's `ObjectHandle.Attrs`, its error only. -/
def objectAttrs (fault : Option String) (objects : ObjectStore) (bucket object : String) :
    Option GoError :=
  match fault with
  | some msg => some (.other msg)
  | none => if (bucket, object) ∈ objects then none else some .ErrObjectNotExist

/-- Line 41, `time.Unix(0, 0).Format(http.TimeFormat)`: `time.Unix` gives the epoch as a
time in the process's local zone. -/
def expiresText (env : Env) : String := formatHTTPTime 0 env.zoneOffset

/-! ## The reverse proxy -/

/-- The `ModifyResponse` function of the handler's reverse proxy. -/
def ModifyResponse (r : Response) : Response :=
  { r with
    Header :=
      Header.Del (Header.Del (Header.Del (Header.Del (Header.Del (Header.Del (Header.Del
        (Header.Del r.Header "expires")
        "x-goog-generation")
        "x-goog-hash")
        "x-goog-metageneration")
        "x-goog-storage-class")
        "x-goog-stored-content-encoding")
        "x-goog-stored-content-length")
        "x-guploader-uploadid" }

/-- Go's `ReverseProxy.ServeHTTP` on a writer whose header map is `w`: a transport error is
answered 502 by the default error handler; otherwise the (modified) upstream headers are
copied into the writer's, and the upstream status and body are forwarded. -/
def reverseProxyServeHTTP (w : Header) (roundTrip : Except String Response) : Response :=
  match roundTrip with
  | .error _ => { StatusCode := 502, Header := w, Body := "" }
  | .ok res =>
    let res' := ModifyResponse res
    { StatusCode := res'.StatusCode, Header := copyHeader w res'.Header, Body := res'.Body }

/-! ## indexHandler -/

/-- Where a run of the handler stands. -/
inductive Phase where
  | preCheck
  | objectCheck
  | transaction
  | stream
  | done
deriving DecidableEq, Repr

/-- One run of `indexHandler`: the writer's header map `w`, the response once written,
the collaborator calls made so far and the log lines printed. -/
structure Run where
  phase : Phase
  w : Header
  response : Option Response
  events : List Event
  log : List String
deriving DecidableEq, Repr

/-- A run that has not started. -/
def Run.init : Run := { phase := .preCheck, w := [], response := none, events := [], log := [] }

/-- The handler writes `resp` and returns. -/
def Run.answer (run : Run) (resp : Response) : Run :=
  { run with phase := .done, response := some resp }

/-- The handler logs `line`, answers `500 internal error` and returns. -/
def Run.internalError (run : Run) (line : String) : Run :=
  { run with
    phase := .done
    response := some (httpError run.w "500 internal error" 500)
    log := run.log ++ [line] }

/-- Lines 39-92: the no-cache headers, routing, validation of the filename, the datastore
client and the pre-check read. -/
def preCheckStep (env : Env) (r : Request) (store : Datastore) (run : Run) : Run :=
  let w := Header.Set (Header.Set (Header.Set run.w
    "Cache-Control" "no-cache, private, max-age=0")
    "Expires" (expiresText env))
    "Pragma" "no-cache"
  let run := { run with w := w }
  if r.Path ≠ "/" then run.answer (httpNotFound w)
  else if r.Method ≠ "GET" then run.answer (httpError w "405 method not allowed" 405)
  else
    let filename := queryGet r.Query "file"
    if filename = "" then run.answer (httpError w "400 bad request: empty filename" 400)
    else if len filename > 128 then
      run.answer (httpError w "400 bad request: invalid filename" 400)
    else
      let run := { run with events := run.events ++ [Event.datastoreNewClient env.GOOGLE_CLOUD_PROJECT] }
      match env.datastoreNewClient with
      | some msg => run.internalError ("datastore.NewClient: " ++ msg)
      | none =>
        let run := { run with events := run.events ++ [Event.datastoreGet filename] }
        match datastoreGet env.datastoreGet store filename with
        | some err =>
          if err ≠ .ErrNoSuchEntity then run.internalError ("datastoreClient.Get: " ++ err.text)
          else { run with phase := .objectCheck }
        | none => run.answer (httpError w "403 forbidden" 403)

/-- Lines 94-120: the storage client and the existence check of the object. -/
def objectCheckStep (env : Env) (r : Request) (objects : ObjectStore) (run : Run) : Run :=
  let filename := queryGet r.Query "file"
  let run := { run with events := run.events ++ [Event.storageNewClient] }
  match env.storageNewClient with
  | some msg => run.internalError ("storage.NewClient: " ++ msg)
  | none =>
    let run := { run with events := run.events ++ [Event.attrs env.BUCKET_NAME filename] }
    match objectAttrs env.attrs objects env.BUCKET_NAME filename with
    | some err =>
      if err = .ErrObjectNotExist then run.answer (httpNotFound run.w)
      else run.internalError ("storageClient.Bucket: " ++ err.text)
    | none => { run with phase := .transaction }

/-- The entity built at lines 129-135: country and region from the App Engine request
headers, and `time.Now()`. -/
def grantEntry (env : Env) (r : Request) : DownloadLogEntry :=
  { Country := Header.Get r.Header "X-Appengine-Country"
    Region := Header.Get r.Header "X-Appengine-Region"
    DownloadedAt := env.now }

/-- Lines 123-139, the function handed to `RunInTransaction`, run on the transaction's
view `store`: its returned error, the mutations it buffered and the calls it made. -/
def grantTransaction (env : Env) (r : Request) (store : Datastore) :
    Option GoError × List (String × DownloadLogEntry) × List Event :=
  let filenameKey := queryGet r.Query "file"
  let err := datastoreGet env.txGet store filenameKey
  if err ≠ some .ErrNoSuchEntity then (err, [], [Event.txGet filenameKey])
  else
    let entry := grantEntry env r
    match env.txPut with
    | some msg => (some (.other msg), [], [Event.txGet filenameKey, Event.txPut filenameKey entry])
    | none => (none, [(filenameKey, entry)], [Event.txGet filenameKey, Event.txPut filenameKey entry])

/-- Go's `RunInTransaction`, as one atomic step on the store: a non-nil error of the
function rolls back and is returned; a nil error commits the buffered mutations. -/
def RunInTransaction (env : Env) (store : Datastore)
    (f : Datastore → Option GoError × List (String × DownloadLogEntry) × List Event) :
    Option GoError × Datastore × List Event :=
  match f store with
  | (some err, _, evs) => (some err, store, evs ++ [Event.rollback])
  | (none, muts, evs) =>
    match env.commit with
    | some msg => (some (.other msg), store, evs ++ [Event.rollback])
    | none => (none, muts.foldl (fun s m => assocPut s m.1 m.2) store, evs ++ [Event.commit])

/-- Lines 122-146: the grant transaction and the handling of its error. -/
def transactionStep (env : Env) (r : Request) (store : Datastore) (run : Run) :
    Run × Datastore :=
  let filename := queryGet r.Query "file"
  let run := { run with events := run.events ++ [Event.runInTransaction filename] }
  match RunInTransaction env store (grantTransaction env r) with
  | (some err, store', evs) =>
    ({ run with events := run.events ++ evs }.internalError
      ("datastoreClient.RunInTransaction: " ++ err.text), store')
  | (none, store', evs) => ({ run with events := run.events ++ evs, phase := .stream }, store')

/-- Lines 148-179: the object's URL and the reverse proxy. -/
def streamStep (env : Env) (r : Request) (run : Run) : Run :=
  let filename := queryGet r.Query "file"
  match urlParse ("https://storage.googleapis.com/" ++ env.BUCKET_NAME ++ "/" ++ filename) with
  | .error err => run.internalError ("url.Parse: " ++ err.text)
  | .ok fileURL =>
    { run with events := run.events ++ [Event.roundTrip fileURL] }.answer
      (reverseProxyServeHTTP run.w (env.roundTrip fileURL))

/-- One piece of the handler, chosen by the run's phase; a finished run stays as it is. -/
def step (env : Env) (r : Request) (objects : ObjectStore) (store : Datastore) (run : Run) :
    Run × Datastore :=
  match run.phase with
  | .preCheck => (preCheckStep env r store run, store)
  | .objectCheck => (objectCheckStep env r objects run, store)
  | .transaction => transactionStep env r store run
  | .stream => (streamStep env r run, store)
  | .done => (run, store)

/-- The handler `indexHandler` of `main.go` run without interruption: the finished run and
the Record Store it leaves. -/
def indexHandler (env : Env) (r : Request) (objects : ObjectStore) (store : Datastore) :
    Run × Datastore :=
  let s1 := step env r objects store Run.init
  let s2 := step env r objects s1.2 s1.1
  let s3 := step env r objects s2.2 s2.1
  step env r objects s3.2 s3.1

/-- Requests served one after the other, each by a full run of `indexHandler` on the
store the one before left: the finished runs and the final store. -/
def serve (objects : ObjectStore) : List (Env × Request) → Datastore → List Run × Datastore
  | [], store => ([], store)
  | (env, r) :: rest, store =>
    let out := indexHandler env r objects store
    let tail := serve objects rest out.2
    (out.1 :: tail.1, tail.2)

/-! ## Concurrent requests -/

/-- A request in flight: its environment, the request and how far its run has come. -/
structure Client where
  env : Env
  r : Request
  run : Run

/-- The shared stores and the requests in flight. -/
structure World where
  objects : ObjectStore
  store : Datastore
  clients : List Client

/-- Client `i` performs its next piece of the handler on the shared store. -/
def World.step (w : World) (i : Nat) : World :=
  match w.clients.get? i with
  | none => w
  | some c =>
    let out := DownloadTrace.step c.env c.r w.objects w.store c.run
    { w with store := out.2, clients := w.clients.set i { c with run := out.1 } }

/-- An interleaving: the clients take their steps in the order `schedule` names them. -/
def World.exec (w : World) (schedule : List Nat) : World :=
  schedule.foldl World.step w

/-- The run reached the streaming step: the proxy sent its request upstream. -/
def Run.streamed (run : Run) : Bool :=
  run.events.any (fun e => match e with | .roundTrip _ => true | _ => false)

/-- The run started the grant transaction. -/
def Run.transacted (run : Run) : Bool :=
  run.events.any (fun e => match e with | .runInTransaction _ => true | _ => false)

/-- The run called the Object Store. -/
def Run.touchedStorage (run : Run) : Bool :=
  run.events.any (fun e =>
    match e with
    | .storageNewClient => true
    | .attrs _ _ => true
    | .roundTrip _ => true
    | _ => false)

/-- The status the run answered with, 0 while it has not answered. -/
def Run.status (run : Run) : Nat :=
  match run.response with
  | some resp => resp.StatusCode
  | none => 0

/-! ## Vocabulary of the properties -/

/-- The request is a `GET` of `/` whose `file` parameter passes the validation. -/
def Request.valid (r : Request) : Prop :=
  r.Path = "/" ∧ r.Method = "GET" ∧ queryGet r.Query "file" ≠ "" ∧
    len (queryGet r.Query "file") ≤ 128

instance (r : Request) : Decidable r.valid := by
  unfold Request.valid; exact inferInstance

/-- The header map the handler sets up before anything else. -/
def noCacheHeader (env : Env) : Header :=
  [("Cache-Control", ["no-cache, private, max-age=0"]),
   ("Expires", [expiresText env]),
   ("Pragma", ["no-cache"])]

/-- The header names `ModifyResponse` deletes, as written in `main.go`. -/
def strippedHeaders : List String :=
  ["expires", "x-goog-generation", "x-goog-hash", "x-goog-metageneration",
   "x-goog-storage-class", "x-goog-stored-content-encoding",
   "x-goog-stored-content-length", "x-guploader-uploadid"]

/-- ASCII lower case of a byte. -/
def asciiLower (c : Nat) : Nat := if 65 ≤ c ∧ c ≤ 90 then c + 32 else c

/-- The two names differ at most in the case of their ASCII letters. -/
def sameHeaderName (k n : String) : Prop :=
  (k.data.map Char.toNat).map asciiLower = (n.data.map Char.toNat).map asciiLower

instance (k n : String) : Decidable (sameHeaderName k n) := by
  unfold sameHeaderName; exact inferInstance

/-- Every key of the map is in canonical form, as in every header map that `net/http`
builds from the wire. -/
def Header.canonical (h : Header) : Prop :=
  ∀ p ∈ h, CanonicalMIMEHeaderKey p.1 = p.1

instance (h : Header) : Decidable (Header.canonical h) := by
  unfold Header.canonical; exact inferInstance

/-- The environments agree on everything but the messages of the errors their
collaborators return. -/
def Env.sameButErrors (a b : Env) : Prop :=
  a.GOOGLE_CLOUD_PROJECT = b.GOOGLE_CLOUD_PROJECT ∧ a.BUCKET_NAME = b.BUCKET_NAME ∧
  a.now = b.now ∧ a.zoneOffset = b.zoneOffset ∧
  a.datastoreNewClient.isSome = b.datastoreNewClient.isSome ∧
  a.datastoreGet.isSome = b.datastoreGet.isSome ∧
  a.storageNewClient.isSome = b.storageNewClient.isSome ∧
  a.attrs.isSome = b.attrs.isSome ∧
  a.txGet.isSome = b.txGet.isSome ∧
  a.txPut.isSome = b.txPut.isSome ∧
  a.commit.isSome = b.commit.isSome ∧
  (∀ u, match a.roundTrip u, b.roundTrip u with
    | .ok x, .ok y => x = y
    | .error _, .error _ => True
    | _, _ => False)

/-- Some Record Store or Object Store operation that the run performs fails: a client
creation, the pre-check read, the existence check or the grant transaction. -/
def collaboratorFails (env : Env) (r : Request) (objects : ObjectStore) (store : Datastore) :
    Prop :=
  let filename := queryGet r.Query "file"
  env.datastoreNewClient.isSome ∨
  (env.datastoreNewClient = none ∧ env.datastoreGet.isSome) ∨
  (env.datastoreNewClient = none ∧ env.datastoreGet = none ∧ assocGet store filename = none ∧
    (env.storageNewClient.isSome ∨
     (env.storageNewClient = none ∧ env.attrs.isSome) ∨
     (env.storageNewClient = none ∧ env.attrs = none ∧ (env.BUCKET_NAME, filename) ∈ objects ∧
       (RunInTransaction env store (grantTransaction env r)).1.isSome)))

/-- No collaborator fails. -/
def Env.healthy (env : Env) : Prop :=
  env.datastoreNewClient = none ∧ env.datastoreGet = none ∧ env.storageNewClient = none ∧
  env.attrs = none ∧ env.txGet = none ∧ env.txPut = none ∧ env.commit = none

instance (env : Env) : Decidable env.healthy := by
  unfold Env.healthy; exact inferInstance

/-- How far a phase is along the handler. -/
def Phase.rank : Phase → Nat
  | .preCheck => 0
  | .objectCheck => 1
  | .transaction => 2
  | .stream => 3
  | .done => 4

/-- The run has answered, either through `http.Error` on the no-cache header map or
through the reverse proxy writing into that map. -/
def Run.answered (env : Env) (run : Run) : Prop :=
  (∃ msg code, run.response = some (httpError (noCacheHeader env) msg code)) ∨
  (∃ u, run.response = some (reverseProxyServeHTTP (noCacheHeader env) (env.roundTrip u)))

/-- What holds of a run of the handler at each phase. -/
def Run.inv (env : Env) (run : Run) : Prop :=
  match run.phase with
  | .preCheck => run = Run.init
  | .done => run.answered env
  | _ => run.w = noCacheHeader env ∧ run.response = none

/-! ## Concrete inputs -/

/-- A filename of 43 characters, each of three bytes: 129 bytes. -/
def euroName : String := String.mk (List.replicate 43 '€')

/-- A filename of 128 characters, each of two bytes: 256 bytes. -/
def accentName : String := String.mk (List.replicate 128 'é')


/-- An answer of the storage service: an object with its provider headers. -/
def exampleUpstream : Response :=
  { StatusCode := 200
    Header :=
      [("Content-Type", ["application/pdf"]),
       ("Expires", ["Wed, 04 Nov 2026 10:00:00 GMT"]),
       ("Cache-Control", ["public, max-age=3600"]),
       ("X-Goog-Hash", ["crc32c=AAAAAA==", "md5=1B2M2Y8AsgTpgAmY7PhCfg=="]),
       ("X-Goog-Generation", ["1700000000000000"]),
       ("X-Guploader-Uploadid", ["ABPtcP"])]
    Body := "%PDF-1.7" }

/-- A storage service holding three objects in `bucket`: `report.pdf`, `a` and `a?b`.
It answers a `GET` by the path of the URL, as bytes, whatever the query. -/
def exampleService (u : URL) : Except String Response :=
  if u.Path = goBytes "/bucket/report.pdf" then .ok exampleUpstream
  else if u.Path = goBytes "/bucket/a" then
    .ok { StatusCode := 200, Header := [("Content-Type", ["text/plain"])], Body := "object a" }
  else if u.Path = goBytes "/bucket/a?b" then
    .ok { StatusCode := 200, Header := [("Content-Type", ["text/plain"])],
          Body := "object a?b" }
  else .ok { StatusCode := 404, Header := [("Content-Type", ["application/xml"])],
             Body := "NoSuchKey" }

/-- An environment in which every collaborator succeeds; the process runs in UTC. -/
def exampleEnv : Env :=
  { GOOGLE_CLOUD_PROJECT := "project"
    BUCKET_NAME := "bucket"
    now := 1700000000
    datastoreNewClient := none
    datastoreGet := none
    storageNewClient := none
    attrs := none
    txGet := none
    txPut := none
    commit := none
    zoneOffset := 0
    roundTrip := exampleService }

/-- The URL of the object `report.pdf` in `bucket`. -/
def reportURL : URL :=
  { Scheme := "https", Host := "storage.googleapis.com",
    Path := goBytes "/bucket/report.pdf", RawQuery := "", Fragment := [] }

/-- The same environment with the process's local zone nine hours east of UTC. -/
def tokyoEnv : Env := { exampleEnv with zoneOffset := 32400 }

/-- An environment whose pre-check read fails with the error `msg`. -/
def failingEnv (msg : String) : Env :=
  { exampleEnv with datastoreGet := some msg }

/-- The request `GET /?file=<name>` as App Engine forwards it from Stockholm. -/
def exampleRequest (name : String) : Request :=
  { Method := "GET"
    Path := "/"
    Query := [("file", name)]
    Header := [("X-Appengine-Country", ["SE"]), ("X-Appengine-Region", ["ab"])] }

/-- Two first-time requests for `report.pdf` in flight, none started, the object present
and no Grant Record yet; the second request's clock is one second ahead. -/
def raceWorld : World :=
  { objects := [("bucket", "report.pdf")]
    store := []
    clients :=
      [{ env := exampleEnv, r := exampleRequest "report.pdf", run := Run.init },
       { env := { exampleEnv with now := 1700000001 }, r := exampleRequest "report.pdf",
         run := Run.init }] }

/-! # Theorems -/

/-! ## Lemmas on maps -/

theorem assocGet_filter {β : Type} (P : String → Bool) (m : List (String × β)) (k : String) :
    assocGet (m.filter (fun p => P p.1)) k = if P k then assocGet m k else none := by
  induction m with
  | nil => simp [assocGet]
  | cons p rest ih =>
    obtain ⟨k', v⟩ := p
    by_cases hP : P k' = true
    · by_cases hk : k' = k
      · subst hk; simp [List.filter, hP, assocGet]
      · simp [List.filter, hP, assocGet, hk, ih]
    · by_cases hk : k' = k
      · subst hk; simp [List.filter, hP, assocGet, ih]
      · simp [List.filter, hP, assocGet, hk, ih]

theorem assocGet_append {β : Type} (m m' : List (String × β)) (k : String) :
    assocGet (m ++ m') k = match assocGet m k with
      | some v => some v
      | none => assocGet m' k := by
  induction m with
  | nil => simp [assocGet]
  | cons p rest ih =>
    obtain ⟨k', v⟩ := p
    by_cases hk : k' = k
    · simp [assocGet, hk]
    · simp [assocGet, hk, ih]

theorem assocGet_del {β : Type} (m : List (String × β)) (k k' : String) :
    assocGet (assocDel m k) k' = if k' = k then none else assocGet m k' := by
  unfold assocDel
  rw [assocGet_filter (fun x => decide (x ≠ k)) m k']
  by_cases h : k' = k <;> simp [h]

theorem assocGet_put {β : Type} (m : List (String × β)) (k k' : String) (v : β) :
    assocGet (assocPut m k v) k' = if k' = k then some v else assocGet m k' := by
  unfold assocPut
  rw [assocGet_append, assocGet_del]
  by_cases h : k' = k
  · subst h; simp [assocGet]
  · have h' : ¬ k = k' := fun e => h e.symm
    simp only [h, if_false, assocGet, h']
    cases assocGet m k' <;> rfl

theorem assocDel_of_none {β : Type} (m : List (String × β)) (k : String)
    (h : assocGet m k = none) : assocDel m k = m := by
  induction m with
  | nil => rfl
  | cons p rest ih =>
    obtain ⟨k', v⟩ := p
    by_cases hk : k' = k
    · simp [assocGet, hk] at h
    · simp only [assocGet, hk, if_false] at h
      have := ih h
      unfold assocDel at this ⊢
      rw [List.filter_cons]
      simp only [ne_eq, hk, not_false_eq_true, decide_True, if_true]
      rw [this]

theorem assocPut_of_none {β : Type} (m : List (String × β)) (k : String) (v : β)
    (h : assocGet m k = none) : assocPut m k v = m ++ [(k, v)] := by
  unfold assocPut; rw [assocDel_of_none m k h]

theorem toNat_ofNat_small (n : Nat) (h : n < 128) : (Char.ofNat n).toNat = n := by
  have hv : n.isValidChar := Or.inl (by omega)
  simp [Char.ofNat, hv, Char.toNat, Char.ofNatAux]
  rfl

/-! ## Lemmas on header names -/

theorem asciiLower_eq_cases (c d : Nat) (h : asciiLower c = asciiLower d) :
    c = d ∨ (65 ≤ c ∧ c ≤ 90 ∧ d = c + 32) ∨ (65 ≤ d ∧ d ≤ 90 ∧ c = d + 32) := by
  unfold asciiLower at h
  split_ifs at h <;> omega

theorem valid_of_upper (c : Nat) (h1 : 65 ≤ c) (h2 : c ≤ 90) :
    validHeaderFieldByte c = true ∧ validHeaderFieldByte (c + 32) = true := by
  constructor
  · simp [validHeaderFieldByte, h1, h2]
  · have : 97 ≤ c + 32 := by omega
    have : c + 32 ≤ 122 := by omega
    simp [validHeaderFieldByte, *]

theorem valid_congr (c d : Nat) (h : asciiLower c = asciiLower d) :
    validHeaderFieldByte c = validHeaderFieldByte d := by
  rcases asciiLower_eq_cases c d h with h | ⟨h1, h2, h3⟩ | ⟨h1, h2, h3⟩
  · rw [h]
  · rw [h3, (valid_of_upper c h1 h2).1, (valid_of_upper c h1 h2).2]
  · rw [h3, (valid_of_upper d h1 h2).1, (valid_of_upper d h1 h2).2]

theorem valid_lt (c : Nat) (h : validHeaderFieldByte c = true) : c < 128 := by
  simp [validHeaderFieldByte] at h
  omega

theorem all_valid_congr (a b : List Nat) (h : a.map asciiLower = b.map asciiLower) :
    a.all validHeaderFieldByte = b.all validHeaderFieldByte := by
  induction a generalizing b with
  | nil =>
    cases b with
    | nil => rfl
    | cons d ds => simp at h
  | cons c cs ih =>
    cases b with
    | nil => simp at h
    | cons d ds =>
      simp only [List.map_cons, List.cons.injEq] at h
      simp only [List.all_cons, valid_congr c d h.1, ih ds h.2]

theorem canonicalBytes_congr (a b : List Nat) (upper : Bool)
    (h : a.map asciiLower = b.map asciiLower) :
    canonicalBytes upper a = canonicalBytes upper b := by
  induction a generalizing b upper with
  | nil =>
    cases b with
    | nil => rfl
    | cons d ds => simp at h
  | cons c cs ih =>
    cases b with
    | nil => simp at h
    | cons d ds =>
      simp only [List.map_cons, List.cons.injEq] at h
      have hhead : (if upper && (decide (97 ≤ c) && decide (c ≤ 122)) then c - 32
            else if !upper && (decide (65 ≤ c) && decide (c ≤ 90)) then c + 32 else c) =
          (if upper && (decide (97 ≤ d) && decide (d ≤ 122)) then d - 32
            else if !upper && (decide (65 ≤ d) && decide (d ≤ 90)) then d + 32 else d) := by
        rcases asciiLower_eq_cases c d h.1 with h1 | ⟨h1, h2, h3⟩ | ⟨h1, h2, h3⟩
        · rw [h1]
        · subst h3
          cases upper <;> simp <;> split_ifs <;> omega
        · subst h3
          cases upper <;> simp <;> split_ifs <;> omega
      simp only [canonicalBytes]
      rw [hhead, ih ds _ h.2]

theorem asciiLower_canonicalBytes (a : List Nat) (upper : Bool) :
    (canonicalBytes upper a).map asciiLower = a.map asciiLower := by
  induction a generalizing upper with
  | nil => rfl
  | cons c cs ih =>
    simp only [canonicalBytes, List.map_cons, ih]
    congr 1
    unfold asciiLower
    cases upper <;> simp <;> split_ifs <;> omega

theorem all_valid_canonicalBytes (a : List Nat) (upper : Bool)
    (h : a.all validHeaderFieldByte = true) :
    (canonicalBytes upper a).all validHeaderFieldByte = true := by
  rw [all_valid_congr _ _ (asciiLower_canonicalBytes a upper)]
  exact h

theorem toNat_ofNat_valid (l : List Nat) (h : l.all validHeaderFieldByte = true) :
    (l.map Char.ofNat).map Char.toNat = l := by
  induction l with
  | nil => rfl
  | cons c cs ih =>
    simp only [List.all_cons, Bool.and_eq_true] at h
    simp only [List.map_cons, ih h.2, toNat_ofNat_small c (valid_lt c h.1)]

/-- The canonical key of a name made of token bytes, as bytes. -/
theorem canonical_bytes_of_valid (n : String)
    (hn : (n.data.map Char.toNat).all validHeaderFieldByte = true) :
    (CanonicalMIMEHeaderKey n).data.map Char.toNat = canonicalBytes true (n.data.map Char.toNat) := by
  simp only [CanonicalMIMEHeaderKey, hn, if_true]
  exact toNat_ofNat_valid _ (all_valid_canonicalBytes _ _ hn)

theorem canonical_eq_of_same (k n : String)
    (hn : (n.data.map Char.toNat).all validHeaderFieldByte = true)
    (h : sameHeaderName k n) : CanonicalMIMEHeaderKey k = CanonicalMIMEHeaderKey n := by
  unfold sameHeaderName at h
  have hk : (k.data.map Char.toNat).all validHeaderFieldByte = true := by
    rw [all_valid_congr _ _ h]; exact hn
  simp only [CanonicalMIMEHeaderKey, hn, hk, if_true]
  rw [canonicalBytes_congr _ _ true h]

theorem same_of_canonical_eq (k n : String)
    (hn : (n.data.map Char.toNat).all validHeaderFieldByte = true)
    (h : CanonicalMIMEHeaderKey k = CanonicalMIMEHeaderKey n) : sameHeaderName k n := by
  have hcn := canonical_bytes_of_valid n hn
  have hvn := all_valid_canonicalBytes _ true hn
  by_cases hk : (k.data.map Char.toNat).all validHeaderFieldByte = true
  · have hck := canonical_bytes_of_valid k hk
    rw [h, hcn] at hck
    unfold sameHeaderName
    rw [← asciiLower_canonicalBytes _ true, ← hck, asciiLower_canonicalBytes]
  · exfalso
    have hkk : CanonicalMIMEHeaderKey k = k := by
      simp only [CanonicalMIMEHeaderKey, hk]
      simp
    rw [hkk] at h
    rw [h, hcn] at hk
    exact hk hvn


/-! ## Lemmas on headers -/

theorem strippedCanonical_eq :
    strippedHeaders.map CanonicalMIMEHeaderKey =
      ["Expires", "X-Goog-Generation", "X-Goog-Hash", "X-Goog-Metageneration",
       "X-Goog-Storage-Class", "X-Goog-Stored-Content-Encoding",
       "X-Goog-Stored-Content-Length", "X-Guploader-Uploadid"] := by decide

theorem stripped_valid (n : String) (hn : n ∈ strippedHeaders) :
    (n.data.map Char.toNat).all validHeaderFieldByte = true := by
  revert n; decide

theorem ModifyResponse_header (r : Response) :
    (ModifyResponse r).Header =
      r.Header.filter (fun p => !(strippedHeaders.map CanonicalMIMEHeaderKey).contains p.1) := by
  have e1 : CanonicalMIMEHeaderKey "expires" = "Expires" := by decide
  have e2 : CanonicalMIMEHeaderKey "x-goog-generation" = "X-Goog-Generation" := by decide
  have e3 : CanonicalMIMEHeaderKey "x-goog-hash" = "X-Goog-Hash" := by decide
  have e4 : CanonicalMIMEHeaderKey "x-goog-metageneration" = "X-Goog-Metageneration" := by decide
  have e5 : CanonicalMIMEHeaderKey "x-goog-storage-class" = "X-Goog-Storage-Class" := by decide
  have e6 : CanonicalMIMEHeaderKey "x-goog-stored-content-encoding" =
      "X-Goog-Stored-Content-Encoding" := by decide
  have e7 : CanonicalMIMEHeaderKey "x-goog-stored-content-length" =
      "X-Goog-Stored-Content-Length" := by decide
  have e8 : CanonicalMIMEHeaderKey "x-guploader-uploadid" = "X-Guploader-Uploadid" := by decide
  simp only [ModifyResponse, Header.Del, assocDel, List.filter_filter, e1, e2, e3, e4, e5, e6,
    e7, e8, strippedCanonical_eq]
  congr 1
  funext p
  simp only [List.contains_cons, List.contains_nil, Bool.or_false, ne_eq, decide_not,
    Bool.not_or, beq_iff_eq]
  rw [Bool.eq_iff_iff]
  simp only [Bool.and_eq_true, Bool.not_eq_true', decide_eq_false_iff_not, beq_eq_false_iff_ne,
    ne_eq]
  tauto

theorem values_ModifyResponse (r : Response) (k : String) :
    Header.Values (ModifyResponse r).Header k =
      if CanonicalMIMEHeaderKey k ∈ strippedHeaders.map CanonicalMIMEHeaderKey then []
      else Header.Values r.Header k := by
  unfold Header.Values
  rw [ModifyResponse_header,
    assocGet_filter (fun x => !(strippedHeaders.map CanonicalMIMEHeaderKey).contains x)]
  by_cases h : CanonicalMIMEHeaderKey k ∈ strippedHeaders.map CanonicalMIMEHeaderKey
  · simp [h]
  · simp [h]


theorem canonical_same_stripped (n : String) (hn : n ∈ strippedHeaders) :
    sameHeaderName (CanonicalMIMEHeaderKey n) n := by
  revert n; decide

/-! ## Header stripping -/

/-- C7: `ModifyResponse` keeps status and body; afterwards no header is found under any
letter-case variant of the eight names it deletes (through Go's case-insensitive
accessor for every header map, and as a literal key when the map's keys are canonical,
as `net/http` builds them); every header of another name is unchanged, the result being
the upstream header map with entries removed and nothing else touched; and applying the
step twice equals applying it once. -/
theorem header_stripping (r : Response) :
    (ModifyResponse r).StatusCode = r.StatusCode ∧
    (ModifyResponse r).Body = r.Body ∧
    (∀ n ∈ strippedHeaders, ∀ k, sameHeaderName k n →
      Header.Values (ModifyResponse r).Header k = []) ∧
    (Header.canonical r.Header →
      ∀ p ∈ (ModifyResponse r).Header, ∀ n ∈ strippedHeaders, ¬ sameHeaderName p.1 n) ∧
    (∀ k, (∀ n ∈ strippedHeaders, ¬ sameHeaderName k n) →
      Header.Values (ModifyResponse r).Header k = Header.Values r.Header k) ∧
    (∀ p ∈ r.Header, (∀ n ∈ strippedHeaders, ¬ sameHeaderName p.1 n) →
      p ∈ (ModifyResponse r).Header) ∧
    List.Sublist (ModifyResponse r).Header r.Header ∧
    ModifyResponse (ModifyResponse r) = ModifyResponse r := by
  refine ⟨rfl, rfl, ?_, ?_, ?_, ?_, ?_, ?_⟩
  · intro n hn k hk
    rw [values_ModifyResponse, canonical_eq_of_same k n (stripped_valid n hn) hk]
    simp only [List.mem_map]
    rw [if_pos ⟨n, hn, rfl⟩]
  · intro hc p hp n hn hs
    rw [ModifyResponse_header, List.mem_filter] at hp
    have h1 := canonical_eq_of_same p.1 n (stripped_valid n hn) hs
    rw [hc p hp.1] at h1
    have h2 : p.1 ∈ strippedHeaders.map CanonicalMIMEHeaderKey := by
      rw [h1]; exact List.mem_map_of_mem _ hn
    simp [h2] at hp
  · intro k hk
    rw [values_ModifyResponse, if_neg]
    intro hmem
    obtain ⟨n, hn, hcn⟩ := List.mem_map.mp hmem
    exact hk n hn (same_of_canonical_eq k n (stripped_valid n hn) hcn.symm)
  · intro p hp hk
    rw [ModifyResponse_header, List.mem_filter]
    refine ⟨hp, ?_⟩
    have hnot : p.1 ∉ strippedHeaders.map CanonicalMIMEHeaderKey := by
      intro hmem
      obtain ⟨n, hn, hcn⟩ := List.mem_map.mp hmem
      have hs := canonical_same_stripped n hn
      rw [hcn] at hs
      exact hk n hn hs
    simp [hnot]
  · rw [ModifyResponse_header]
    exact List.filter_sublist _
  · have hh : (ModifyResponse (ModifyResponse r)).Header = (ModifyResponse r).Header := by
      rw [ModifyResponse_header (ModifyResponse r), ModifyResponse_header r, List.filter_filter]
      simp
    have hs : (ModifyResponse (ModifyResponse r)).StatusCode = (ModifyResponse r).StatusCode := rfl
    have hb : (ModifyResponse (ModifyResponse r)).Body = (ModifyResponse r).Body := rfl
    cases h1 : ModifyResponse (ModifyResponse r)
    cases h2 : ModifyResponse r
    rw [h1, h2] at hh hs hb
    simp only at hh hs hb
    rw [hh, hs, hb]

/-- C7 at a concrete upstream response with canonical keys. -/
theorem header_stripping_witness :
    Header.canonical exampleUpstream.Header ∧
    ∀ p ∈ (ModifyResponse exampleUpstream).Header, ∀ n ∈ strippedHeaders,
      ¬ sameHeaderName p.1 n :=
  ⟨by decide, (header_stripping exampleUpstream).2.2.2.1 (by decide)⟩


/-! ## Paths through the handler -/

theorem noCache_eq (env : Env) :
    Header.Set (Header.Set (Header.Set [] "Cache-Control" "no-cache, private, max-age=0")
      "Expires" (expiresText env)) "Pragma" "no-cache" = noCacheHeader env := by
  rfl

theorem indexHandler_denied (env : Env) (r : Request) (objects : ObjectStore) (store : Datastore)
    (e : DownloadLogEntry) (hv : r.valid)
    (hrec : assocGet store (queryGet r.Query "file") = some e)
    (hc : env.datastoreNewClient = none) (hg : env.datastoreGet = none) :
    indexHandler env r objects store =
      ({ phase := .done, w := (noCacheHeader env),
         response := some (httpError (noCacheHeader env) "403 forbidden" 403),
         events := [Event.datastoreNewClient env.GOOGLE_CLOUD_PROJECT,
           Event.datastoreGet (queryGet r.Query "file")],
         log := [] }, store) := by
  obtain ⟨h1, h2, h3, h4⟩ := hv
  have h4' : ¬ (len (queryGet r.Query "file") > 128) := by omega
  simp [indexHandler, step, preCheckStep, Run.init, noCache_eq, h1, h2, h3, h4', hc, hg,
    datastoreGet, hrec, Run.answer]

theorem indexHandler_missing (env : Env) (r : Request) (objects : ObjectStore)
    (store : Datastore) (hv : r.valid)
    (hrec : assocGet store (queryGet r.Query "file") = none)
    (hobj : (env.BUCKET_NAME, queryGet r.Query "file") ∉ objects)
    (hc : env.datastoreNewClient = none) (hg : env.datastoreGet = none)
    (hs : env.storageNewClient = none) (ha : env.attrs = none) :
    indexHandler env r objects store =
      ({ phase := .done, w := (noCacheHeader env),
         response := some (httpNotFound (noCacheHeader env)),
         events := [Event.datastoreNewClient env.GOOGLE_CLOUD_PROJECT,
           Event.datastoreGet (queryGet r.Query "file"), Event.storageNewClient,
           Event.attrs env.BUCKET_NAME (queryGet r.Query "file")],
         log := [] }, store) := by
  obtain ⟨h1, h2, h3, h4⟩ := hv
  have h4' : ¬ (len (queryGet r.Query "file") > 128) := by omega
  simp [indexHandler, step, preCheckStep, objectCheckStep, Run.init, noCache_eq, h1, h2, h3, h4',
    hc, hg, hs, ha, datastoreGet, objectAttrs, hrec, hobj, Run.answer]

theorem indexHandler_granted (env : Env) (r : Request) (objects : ObjectStore)
    (store : Datastore) (hv : r.valid) (he : env.healthy)
    (hrec : assocGet store (queryGet r.Query "file") = none)
    (hobj : (env.BUCKET_NAME, queryGet r.Query "file") ∈ objects) :
    indexHandler env r objects store =
      (streamStep env r
        { phase := .stream, w := (noCacheHeader env), response := none,
          events := [Event.datastoreNewClient env.GOOGLE_CLOUD_PROJECT,
            Event.datastoreGet (queryGet r.Query "file"), Event.storageNewClient,
            Event.attrs env.BUCKET_NAME (queryGet r.Query "file"),
            Event.runInTransaction (queryGet r.Query "file"),
            Event.txGet (queryGet r.Query "file"),
            Event.txPut (queryGet r.Query "file") (grantEntry env r),
            Event.commit],
          log := [] },
       store ++ [(queryGet r.Query "file", grantEntry env r)]) := by
  obtain ⟨h1, h2, h3, h4⟩ := hv
  obtain ⟨hc, hg, hs, ha, htg, htp, hcm⟩ := he
  have h4' : ¬ (len (queryGet r.Query "file") > 128) := by omega
  simp [indexHandler, step, preCheckStep, objectCheckStep, transactionStep, RunInTransaction,
    grantTransaction, Run.init, noCache_eq, h1, h2, h3, h4',
    hc, hg, hs, ha, htg, htp, hcm, datastoreGet, objectAttrs, hrec, hobj, Run.answer,
    assocPut_of_none, grantEntry]


theorem serve_denied (objects : ObjectStore) (store : Datastore) (f : String)
    (e : DownloadLogEntry) (reqs : List (Env × Request))
    (hrec : assocGet store f = some e)
    (hreqs : ∀ q ∈ reqs, q.2.valid ∧ queryGet q.2.Query "file" = f ∧
      q.1.datastoreNewClient = none ∧ q.1.datastoreGet = none) :
    serve objects reqs store =
      (reqs.map (fun q =>
        { phase := .done, w := noCacheHeader q.1,
          response := some (httpError (noCacheHeader q.1) "403 forbidden" 403),
          events := [Event.datastoreNewClient q.1.GOOGLE_CLOUD_PROJECT, Event.datastoreGet f],
          log := [] }), store) := by
  induction reqs with
  | nil => rfl
  | cons q rest ih =>
    obtain ⟨env, r⟩ := q
    obtain ⟨hv, hf, hc, hg⟩ := hreqs (env, r) (List.mem_cons_self _ _)
    have hrec' : assocGet store (queryGet r.Query "file") = some e := by
      simp only at hf; rw [hf]; exact hrec
    have hd := indexHandler_denied env r objects store e hv hrec' hc hg
    simp only at hf
    rw [hf] at hd
    simp only [serve, hd, List.map_cons]
    rw [ih (fun q hq => hreqs q (List.mem_cons_of_mem _ hq))]

/-! ## The claims on one request at a time -/

/-- C3: when the Record Store holds a Grant Record for `f` (and answers the pre-check
read), every valid `GET /?file=f` is answered 403 after the datastore client and the
pre-check read alone: no Object Store call, no transaction, no streaming, and the Record
Store is left as it was; so any sequence of such requests yields 403 each time and the
store never changes. -/
theorem idempotent_denial (objects : ObjectStore) (store : Datastore) (f : String)
    (e : DownloadLogEntry) (reqs : List (Env × Request))
    (hrec : assocGet store f = some e)
    (hreqs : ∀ q ∈ reqs, q.2.valid ∧ queryGet q.2.Query "file" = f ∧
      q.1.datastoreNewClient = none ∧ q.1.datastoreGet = none) :
    (∀ q ∈ reqs,
      (indexHandler q.1 q.2 objects store).1.response =
        some (httpError (noCacheHeader q.1) "403 forbidden" 403) ∧
      (indexHandler q.1 q.2 objects store).1.status = 403 ∧
      (indexHandler q.1 q.2 objects store).1.events =
        [Event.datastoreNewClient q.1.GOOGLE_CLOUD_PROJECT, Event.datastoreGet f] ∧
      (indexHandler q.1 q.2 objects store).1.touchedStorage = false ∧
      (indexHandler q.1 q.2 objects store).1.transacted = false ∧
      (indexHandler q.1 q.2 objects store).1.streamed = false ∧
      (indexHandler q.1 q.2 objects store).2 = store) ∧
    (serve objects reqs store).2 = store ∧
    (serve objects reqs store).1.length = reqs.length ∧
    ∀ run ∈ (serve objects reqs store).1,
      run.status = 403 ∧ run.touchedStorage = false ∧ run.transacted = false ∧
      run.streamed = false := by
  refine ⟨?_, ?_, ?_, ?_⟩
  · intro q hq
    obtain ⟨hv, hf, hc, hg⟩ := hreqs q hq
    have hrec' : assocGet store (queryGet q.2.Query "file") = some e := by rw [hf]; exact hrec
    rw [indexHandler_denied q.1 q.2 objects store e hv hrec' hc hg, hf]
    exact ⟨rfl, rfl, rfl, rfl, rfl, rfl, rfl⟩
  · rw [serve_denied objects store f e reqs hrec hreqs]
  · rw [serve_denied objects store f e reqs hrec hreqs]; simp
  · rw [serve_denied objects store f e reqs hrec hreqs]
    intro run hrun
    simp only [List.mem_map] at hrun
    obtain ⟨q, _, rfl⟩ := hrun
    exact ⟨rfl, rfl, rfl, rfl⟩

/-- C3 at three requests in a row for a file already granted. -/
theorem idempotent_denial_witness :
    (serve [("bucket", "report.pdf")]
      [(exampleEnv, exampleRequest "report.pdf"), (exampleEnv, exampleRequest "report.pdf"),
       (exampleEnv, exampleRequest "report.pdf")]
      [("report.pdf", { Country := "SE", Region := "ab", DownloadedAt := 1 })]).2 =
      [("report.pdf", { Country := "SE", Region := "ab", DownloadedAt := 1 })] :=
  (idempotent_denial [("bucket", "report.pdf")]
    [("report.pdf", { Country := "SE", Region := "ab", DownloadedAt := 1 })] "report.pdf"
    { Country := "SE", Region := "ab", DownloadedAt := 1 }
    [(exampleEnv, exampleRequest "report.pdf"), (exampleEnv, exampleRequest "report.pdf"),
     (exampleEnv, exampleRequest "report.pdf")]
    (by decide) (by decide)).2.1

/-- C4: a valid filename with no Grant Record and no object (the stores answering) is
answered 404 without the grant transaction being started and with the Record Store
unchanged; a later request for the same filename, once the object exists, finds no
record in its way and commits the grant. -/
theorem missing_object (env env' : Env) (r : Request) (objects objects' : ObjectStore)
    (store : Datastore) (hv : r.valid)
    (hrec : assocGet store (queryGet r.Query "file") = none)
    (hobj : (env.BUCKET_NAME, queryGet r.Query "file") ∉ objects)
    (hc : env.datastoreNewClient = none) (hg : env.datastoreGet = none)
    (hs : env.storageNewClient = none) (ha : env.attrs = none)
    (he' : env'.healthy)
    (hobj' : (env'.BUCKET_NAME, queryGet r.Query "file") ∈ objects') :
    (indexHandler env r objects store).1.response = some (httpNotFound (noCacheHeader env)) ∧
    (indexHandler env r objects store).1.status = 404 ∧
    (indexHandler env r objects store).1.transacted = false ∧
    (indexHandler env r objects store).1.streamed = false ∧
    (indexHandler env r objects store).2 = store ∧
    (indexHandler env' r objects' (indexHandler env r objects store).2).2 =
      store ++ [(queryGet r.Query "file", grantEntry env' r)] ∧
    Event.commit ∈ (indexHandler env' r objects' (indexHandler env r objects store).2).1.events := by
  rw [indexHandler_missing env r objects store hv hrec hobj hc hg hs ha]
  refine ⟨rfl, rfl, rfl, rfl, rfl, ?_, ?_⟩
  · rw [indexHandler_granted env' r objects' store hv he' hrec hobj']
  · rw [indexHandler_granted env' r objects' store hv he' hrec hobj']
    simp only [streamStep]
    split <;> simp [Run.internalError, Run.answer]

/-- C4 at `missing.pdf`, absent at first and uploaded afterwards. -/
theorem missing_object_witness :
    (indexHandler exampleEnv (exampleRequest "missing.pdf") [] []).1.status = 404 ∧
    (indexHandler exampleEnv (exampleRequest "missing.pdf") [] []).2 = [] :=
  have h := missing_object exampleEnv exampleEnv (exampleRequest "missing.pdf") []
    [("bucket", "missing.pdf")] [] (by decide) (by decide) (by decide) (by decide) (by decide)
    (by decide) (by decide) (by decide) (by decide)
  ⟨h.2.1, h.2.2.2.2.1⟩


/-- The granted path in general: the store gains the one record, and the handler either
hands the parsed URL to the proxy and forwards the upstream status and body, or answers
500 when `url.Parse` rejects the URL. -/
theorem first_request_granted (env : Env) (r : Request) (objects : ObjectStore)
    (store : Datastore) (hv : r.valid) (he : env.healthy)
    (hrec : assocGet store (queryGet r.Query "file") = none)
    (hobj : (env.BUCKET_NAME, queryGet r.Query "file") ∈ objects) :
    (indexHandler env r objects store).2 =
      store ++ [(queryGet r.Query "file", grantEntry env r)] ∧
    (grantEntry env r).Country = Header.Get r.Header "X-Appengine-Country" ∧
    (grantEntry env r).Region = Header.Get r.Header "X-Appengine-Region" ∧
    (grantEntry env r).DownloadedAt = env.now ∧
    (Header.Values r.Header "X-Appengine-Country" = [] → (grantEntry env r).Country = "") ∧
    (Header.Values r.Header "X-Appengine-Region" = [] → (grantEntry env r).Region = "") ∧
    (∀ u, urlParse ("https://storage.googleapis.com/" ++ env.BUCKET_NAME ++ "/" ++
        queryGet r.Query "file") = .ok u →
      (indexHandler env r objects store).1.events =
        [Event.datastoreNewClient env.GOOGLE_CLOUD_PROJECT,
         Event.datastoreGet (queryGet r.Query "file"), Event.storageNewClient,
         Event.attrs env.BUCKET_NAME (queryGet r.Query "file"),
         Event.runInTransaction (queryGet r.Query "file"),
         Event.txGet (queryGet r.Query "file"),
         Event.txPut (queryGet r.Query "file") (grantEntry env r),
         Event.commit,
         Event.roundTrip u] ∧
      (indexHandler env r objects store).1.response =
        some (reverseProxyServeHTTP (noCacheHeader env) (env.roundTrip u)) ∧
      (∀ res, env.roundTrip u = .ok res →
        (indexHandler env r objects store).1.status = res.StatusCode ∧
        ∀ resp, (indexHandler env r objects store).1.response = some resp →
          resp.Body = res.Body)) ∧
    (∀ err, urlParse ("https://storage.googleapis.com/" ++ env.BUCKET_NAME ++ "/" ++
        queryGet r.Query "file") = .error err →
      (indexHandler env r objects store).1.response =
        some (httpError (noCacheHeader env) "500 internal error" 500) ∧
      (indexHandler env r objects store).1.streamed = false) := by
  rw [indexHandler_granted env r objects store hv he hrec hobj]
  refine ⟨rfl, rfl, rfl, rfl, ?_, ?_, ?_, ?_⟩
  · intro h; simp [grantEntry, Header.Get, h]
  · intro h; simp [grantEntry, Header.Get, h]
  · intro u hu
    refine ⟨?_, ?_, ?_⟩
    · simp [streamStep, hu, Run.answer]
    · simp [streamStep, hu, Run.answer]
    · intro res hres
      simp [streamStep, hu, Run.answer, Run.status, hres, reverseProxyServeHTTP,
        ModifyResponse]
  · intro err hu
    simp [streamStep, hu, Run.internalError, Run.streamed]

theorem first_request_granted_at_report :
    (indexHandler exampleEnv (exampleRequest "report.pdf") [("bucket", "report.pdf")] []).2 =
      [("report.pdf", { Country := "SE", Region := "ab", DownloadedAt := 1700000000 })] ∧
    (indexHandler exampleEnv (exampleRequest "report.pdf") [("bucket", "report.pdf")]
      []).1.response =
        some (reverseProxyServeHTTP (noCacheHeader exampleEnv) (.ok exampleUpstream)) :=
  have h := first_request_granted exampleEnv (exampleRequest "report.pdf")
    [("bucket", "report.pdf")] [] (by decide) (by decide) (by decide) (by decide)
  ⟨h.1, (h.2.2.2.2.2.2.1 reportURL (by decide)).2.1⟩

/-- C10 fails on the code for filenames that are not their own URL path. The object is
checked under its exact name, but line 150 pastes the name unescaped into the URL.
At `%zz` (valid name, object present, no Grant Record, all collaborators succeeding) the
grant is committed, `url.Parse` then rejects the URL and the handler answers 500 without
reaching the proxy. At `a?b` (same conditions) the grant for `a?b` is committed and the
proxy is sent to the path `/bucket/a` with query `b`: the request names the object `a`,
and the caller receives that object's bytes, not those of `a?b`. -/
theorem first_request_wrong_object :
    ((exampleRequest "%zz").valid ∧ exampleEnv.healthy ∧
      ("bucket", "%zz") ∈ [("bucket", "%zz")] ∧
      assocGet ([] : Datastore) "%zz" = none ∧
      (indexHandler exampleEnv (exampleRequest "%zz") [("bucket", "%zz")] []).2 =
        [("%zz", { Country := "SE", Region := "ab", DownloadedAt := 1700000000 })] ∧
      (indexHandler exampleEnv (exampleRequest "%zz") [("bucket", "%zz")] []).1.status = 500 ∧
      (indexHandler exampleEnv (exampleRequest "%zz") [("bucket", "%zz")] []).1.streamed
        = false) ∧
    ((exampleRequest "a?b").valid ∧
      ("bucket", "a?b") ∈ [("bucket", "a"), ("bucket", "a?b")] ∧
      assocGet ([] : Datastore) "a?b" = none ∧
      (indexHandler exampleEnv (exampleRequest "a?b")
        [("bucket", "a"), ("bucket", "a?b")] []).2 =
        [("a?b", { Country := "SE", Region := "ab", DownloadedAt := 1700000000 })] ∧
      (indexHandler exampleEnv (exampleRequest "a?b")
        [("bucket", "a"), ("bucket", "a?b")] []).1.events =
        [Event.datastoreNewClient "project", Event.datastoreGet "a?b",
         Event.storageNewClient, Event.attrs "bucket" "a?b",
         Event.runInTransaction "a?b", Event.txGet "a?b",
         Event.txPut "a?b" { Country := "SE", Region := "ab", DownloadedAt := 1700000000 },
         Event.commit,
         Event.roundTrip
           { Scheme := "https", Host := "storage.googleapis.com",
             Path := goBytes "/bucket/a", RawQuery := "b", Fragment := [] }] ∧
      goBytes "/bucket/a" ≠ goBytes "/bucket/a?b" ∧
      (indexHandler exampleEnv (exampleRequest "a?b")
        [("bucket", "a"), ("bucket", "a?b")] []).1.response.map (fun resp => resp.Body) =
        some "object a" ∧
      exampleService
          { Scheme := "https", Host := "storage.googleapis.com",
            Path := goBytes "/bucket/a?b", RawQuery := "", Fragment := [] } =
        .ok { StatusCode := 200, Header := [("Content-Type", ["text/plain"])],
              Body := "object a?b" }) := by
  decide

theorem indexHandler_rejected (env : Env) (r : Request) (objects : ObjectStore)
    (store : Datastore) (hp : r.Path = "/") (hm : r.Method = "GET")
    (hbad : queryGet r.Query "file" = "" ∨ len (queryGet r.Query "file") > 128) :
    (indexHandler env r objects store).1.status = 400 ∧
    (indexHandler env r objects store).1.events = [] ∧
    (indexHandler env r objects store).2 = store := by
  by_cases h3 : queryGet r.Query "file" = ""
  · simp [indexHandler, step, preCheckStep, Run.init, noCache_eq, hp, hm, h3, Run.answer,
      Run.status, httpError]
  · have h4 : len (queryGet r.Query "file") > 128 := by
      rcases hbad with h | h
      · exact absurd h h3
      · exact h
    simp [indexHandler, step, preCheckStep, Run.init, noCache_eq, hp, hm, h3, h4, Run.answer,
      Run.status, httpError]


theorem step_events (env : Env) (r : Request) (objects : ObjectStore) (store : Datastore)
    (run : Run) : ∃ extra, (step env r objects store run).1.events = run.events ++ extra := by
  unfold step
  split
  · simp only [preCheckStep]
    split_ifs
    · exact ⟨[], by simp [Run.answer]⟩
    · exact ⟨[], by simp [Run.answer]⟩
    · exact ⟨[], by simp [Run.answer]⟩
    · exact ⟨[], by simp [Run.answer]⟩
    · split
      · exact ⟨_, rfl⟩
      · split
        · split_ifs
          · exact ⟨_, by simp [Run.internalError]; rfl⟩
          · exact ⟨_, by simp; rfl⟩
        · exact ⟨_, by simp [Run.answer]; rfl⟩
  · simp only [objectCheckStep]
    split
    · exact ⟨_, rfl⟩
    · split
      · split_ifs
        · exact ⟨_, by simp [Run.answer]; rfl⟩
        · exact ⟨_, by simp [Run.internalError]; rfl⟩
      · exact ⟨_, by simp; rfl⟩
  · simp only [transactionStep]
    split
    · exact ⟨_, by simp [Run.internalError]; rfl⟩
    · exact ⟨_, by simp; rfl⟩
  · simp only [streamStep]
    split
    · exact ⟨[], by simp [Run.internalError]⟩
    · exact ⟨_, by simp [Run.answer]; rfl⟩
  · exact ⟨[], by simp⟩


theorem indexHandler_events_valid (env : Env) (r : Request) (objects : ObjectStore)
    (store : Datastore) (hv : r.valid) :
    ∃ rest, (indexHandler env r objects store).1.events =
      Event.datastoreNewClient env.GOOGLE_CLOUD_PROJECT :: rest := by
  obtain ⟨h1, h2, h3, h4⟩ := hv
  have h4' : ¬ (len (queryGet r.Query "file") > 128) := by omega
  have hfirst : ∃ rest, (step env r objects store Run.init).1.events =
      Event.datastoreNewClient env.GOOGLE_CLOUD_PROJECT :: rest := by
    simp only [step, Run.init, preCheckStep, h1, h2, h3, h4', ne_eq, not_true_eq_false,
      if_false, List.nil_append]
    split
    · exact ⟨_, rfl⟩
    · split
      · split_ifs
        · exact ⟨_, rfl⟩
        · exact ⟨_, rfl⟩
      · exact ⟨_, rfl⟩
  obtain ⟨rest1, e1⟩ := hfirst
  unfold indexHandler
  simp only
  obtain ⟨x2, e2⟩ := step_events env r objects (step env r objects store Run.init).2
    (step env r objects store Run.init).1
  obtain ⟨x3, e3⟩ := step_events env r objects
    (step env r objects (step env r objects store Run.init).2
      (step env r objects store Run.init).1).2
    (step env r objects (step env r objects store Run.init).2
      (step env r objects store Run.init).1).1
  obtain ⟨x4, e4⟩ := step_events env r objects
    (step env r objects (step env r objects (step env r objects store Run.init).2
      (step env r objects store Run.init).1).2
      (step env r objects (step env r objects store Run.init).2
      (step env r objects store Run.init).1).1).2
    (step env r objects (step env r objects (step env r objects store Run.init).2
      (step env r objects store Run.init).1).2
      (step env r objects (step env r objects store Run.init).2
      (step env r objects store Run.init).1).1).1
  rw [e4, e3, e2, e1]
  exact ⟨rest1 ++ x2 ++ x3 ++ x4, by simp⟩

/-- C5, as the code has it: a `GET /` is refused with 400 before any collaborator is
called exactly when the `file` parameter is empty or longer than 128 bytes (Go's `len`);
every other filename passes on to the datastore client; so a filename of exactly 128
bytes is accepted and one of 129 bytes is refused. -/
theorem validation_boundary (env : Env) (r : Request) (objects : ObjectStore)
    (store : Datastore) (hp : r.Path = "/") (hm : r.Method = "GET") :
    (((indexHandler env r objects store).1.status = 400 ∧
        (indexHandler env r objects store).1.events = []) ↔
      (queryGet r.Query "file" = "" ∨ len (queryGet r.Query "file") > 128)) ∧
    (¬ (queryGet r.Query "file" = "" ∨ len (queryGet r.Query "file") > 128) →
      ∃ rest, (indexHandler env r objects store).1.events =
        Event.datastoreNewClient env.GOOGLE_CLOUD_PROJECT :: rest) ∧
    (len (queryGet r.Query "file") = 128 →
      ∃ rest, (indexHandler env r objects store).1.events =
        Event.datastoreNewClient env.GOOGLE_CLOUD_PROJECT :: rest) ∧
    (len (queryGet r.Query "file") = 129 →
      (indexHandler env r objects store).1.status = 400 ∧
      (indexHandler env r objects store).1.events = [] ∧
      (indexHandler env r objects store).2 = store) := by
  have hvalid : ¬ (queryGet r.Query "file" = "" ∨ len (queryGet r.Query "file") > 128) →
      ∃ rest, (indexHandler env r objects store).1.events =
        Event.datastoreNewClient env.GOOGLE_CLOUD_PROJECT :: rest := by
    intro h
    push_neg at h
    exact indexHandler_events_valid env r objects store ⟨hp, hm, h.1, by omega⟩
  refine ⟨⟨?_, ?_⟩, hvalid, ?_, ?_⟩
  · intro h
    by_contra hn
    obtain ⟨rest, hr⟩ := hvalid hn
    rw [h.2] at hr
    exact List.noConfusion hr
  · intro h
    exact ⟨(indexHandler_rejected env r objects store hp hm h).1,
      (indexHandler_rejected env r objects store hp hm h).2.1⟩
  · intro h
    apply hvalid
    intro hbad
    rcases hbad with hb | hb
    · rw [hb] at h
      exact absurd h (by decide)
    · omega
  · intro h
    exact indexHandler_rejected env r objects store hp hm (Or.inr (by omega))

/-- C5 (amended) at `GET /?file=report.pdf`. -/
theorem validation_boundary_witness :
    ((indexHandler exampleEnv (exampleRequest "report.pdf") [] []).1.status = 400 ∧
        (indexHandler exampleEnv (exampleRequest "report.pdf") [] []).1.events = []) ↔
      (queryGet (exampleRequest "report.pdf").Query "file" = "" ∨
        len (queryGet (exampleRequest "report.pdf").Query "file") > 128) :=
  (validation_boundary exampleEnv (exampleRequest "report.pdf") [] [] (by decide)
    (by decide)).1

set_option maxRecDepth 100000 in
/-- C5 as stated fails on filenames with characters of several bytes: `euroName` is not
empty and has 43 characters, at most 128, yet is refused with 400 before any store is
called; `accentName` has exactly 128 characters and is refused as well. -/
theorem validation_counts_bytes :
    euroName ≠ "" ∧ euroName.length = 43 ∧
    (indexHandler exampleEnv (exampleRequest euroName) [("bucket", euroName)] []).1.status = 400 ∧
    (indexHandler exampleEnv (exampleRequest euroName) [("bucket", euroName)] []).1.events = [] ∧
    accentName.length = 128 ∧
    (indexHandler exampleEnv (exampleRequest accentName) [("bucket", accentName)] []).1.status
      = 400 ∧
    (indexHandler exampleEnv (exampleRequest accentName) [("bucket", accentName)] []).1.events
      = [] := by
  decide


/-! ## The no-cache headers -/

theorem values_Add (h : Header) (k' v k : String) :
    Header.Values (Header.Add h k' v) k =
      if CanonicalMIMEHeaderKey k = CanonicalMIMEHeaderKey k' then Header.Values h k ++ [v]
      else Header.Values h k := by
  unfold Header.Add Header.Values
  rw [assocGet_put]
  by_cases hk : CanonicalMIMEHeaderKey k = CanonicalMIMEHeaderKey k'
  · simp [hk]
  · simp [hk]

theorem values_addAll (vs : List String) (d : Header) (k' k : String) :
    Header.Values (vs.foldl (fun d' v => Header.Add d' k' v) d) k =
      if CanonicalMIMEHeaderKey k = CanonicalMIMEHeaderKey k' then Header.Values d k ++ vs
      else Header.Values d k := by
  induction vs generalizing d with
  | nil => simp
  | cons v rest ih =>
    simp only [List.foldl_cons, ih, values_Add]
    by_cases hk : CanonicalMIMEHeaderKey k = CanonicalMIMEHeaderKey k'
    · simp [hk]
    · simp [hk]

theorem values_copyHeader (src dst : Header) (k : String) :
    ∃ extra, Header.Values (copyHeader dst src) k = Header.Values dst k ++ extra := by
  unfold copyHeader
  induction src generalizing dst with
  | nil => exact ⟨[], by simp⟩
  | cons p rest ih =>
    simp only [List.foldl_cons]
    obtain ⟨extra, he⟩ := ih (p.2.foldl (fun d' v => Header.Add d' p.1 v) dst)
    rw [he, values_addAll]
    by_cases hk : CanonicalMIMEHeaderKey k = CanonicalMIMEHeaderKey p.1
    · exact ⟨p.2 ++ extra, by simp [hk]⟩
    · exact ⟨extra, by simp [hk]⟩

theorem values_copyHeader_other (src dst : Header) (k : String)
    (h : ∀ p ∈ src, CanonicalMIMEHeaderKey p.1 ≠ CanonicalMIMEHeaderKey k) :
    Header.Values (copyHeader dst src) k = Header.Values dst k := by
  unfold copyHeader
  induction src generalizing dst with
  | nil => rfl
  | cons p rest ih =>
    simp only [List.foldl_cons]
    rw [ih _ (fun q hq => h q (List.mem_cons_of_mem _ hq)), values_addAll]
    have hp := h p (List.mem_cons_self _ _)
    rw [if_neg (fun e => hp e.symm)]

theorem get_of_values (h : Header) (k v : String) (rest : List String)
    (hv : Header.Values h k = v :: rest) : Header.Get h k = v := by
  unfold Header.Get; rw [hv]

theorem httpError_noCache (env : Env) (msg : String) (code : Nat) :
    Header.Values (httpError (noCacheHeader env) msg code).Header "Cache-Control" =
      ["no-cache, private, max-age=0"] ∧
    Header.Values (httpError (noCacheHeader env) msg code).Header "Expires" = [(expiresText env)] ∧
    Header.Values (httpError (noCacheHeader env) msg code).Header "Pragma" = ["no-cache"] := by
  exact ⟨rfl, rfl, rfl⟩

theorem proxy_noCache (env : Env) (roundTrip : Except String Response) :
    (∃ extra, Header.Values (reverseProxyServeHTTP (noCacheHeader env) roundTrip).Header
      "Cache-Control" = "no-cache, private, max-age=0" :: extra) ∧
    (∃ extra, Header.Values (reverseProxyServeHTTP (noCacheHeader env) roundTrip).Header
      "Expires" = (expiresText env) :: extra) ∧
    (∃ extra, Header.Values (reverseProxyServeHTTP (noCacheHeader env) roundTrip).Header
      "Pragma" = "no-cache" :: extra) := by
  cases roundTrip with
  | error e =>
    simp only [reverseProxyServeHTTP]
    exact ⟨⟨[], rfl⟩, ⟨[], rfl⟩, ⟨[], rfl⟩⟩
  | ok res =>
    simp only [reverseProxyServeHTTP]
    obtain ⟨x1, h1⟩ := values_copyHeader (ModifyResponse res).Header (noCacheHeader env) "Cache-Control"
    obtain ⟨x2, h2⟩ := values_copyHeader (ModifyResponse res).Header (noCacheHeader env) "Expires"
    obtain ⟨x3, h3⟩ := values_copyHeader (ModifyResponse res).Header (noCacheHeader env) "Pragma"
    refine ⟨⟨x1, ?_⟩, ⟨x2, ?_⟩, ⟨x3, ?_⟩⟩
    · rw [h1]; rfl
    · rw [h2]; rfl
    · rw [h3]; rfl

theorem proxy_expires_exact (env : Env) (res : Response)
    (hc : Header.canonical res.Header) :
    Header.Values (reverseProxyServeHTTP (noCacheHeader env) (.ok res)).Header "Expires" =
      [(expiresText env)] := by
  simp only [reverseProxyServeHTTP]
  rw [values_copyHeader_other]
  · rfl
  · intro p hp hcan
    have hp' := hp
    rw [ModifyResponse_header, List.mem_filter] at hp'
    rw [hc p hp'.1] at hcan
    have hmem : p.1 ∈ strippedHeaders.map CanonicalMIMEHeaderKey := by
      rw [hcan]; decide
    simp [hmem] at hp'


theorem step_inv (env : Env) (r : Request) (objects : ObjectStore) (store : Datastore)
    (run : Run) (h : Run.inv env run) : Run.inv env (step env r objects store run).1 := by
  unfold step
  split
  · rename_i hph
    simp only [Run.inv, hph] at h
    subst h
    simp only [preCheckStep, Run.init, noCache_eq]
    split_ifs
    · exact Or.inl ⟨_, _, rfl⟩
    · exact Or.inl ⟨_, _, rfl⟩
    · exact Or.inl ⟨_, _, rfl⟩
    · exact Or.inl ⟨_, _, rfl⟩
    · split
      · exact Or.inl ⟨_, _, rfl⟩
      · split
        · split_ifs
          · exact Or.inl ⟨_, _, rfl⟩
          · exact ⟨rfl, rfl⟩
        · exact Or.inl ⟨_, _, rfl⟩
  · rename_i hph
    simp only [Run.inv, hph] at h
    simp only [objectCheckStep]
    split
    · exact Or.inl ⟨_, _, by simp [Run.internalError, h.1]; rfl⟩
    · split
      · split_ifs
        · exact Or.inl ⟨_, _, by simp [Run.answer, h.1, httpNotFound]; rfl⟩
        · exact Or.inl ⟨_, _, by simp [Run.internalError, h.1]; rfl⟩
      · exact ⟨h.1, h.2⟩
  · rename_i hph
    simp only [Run.inv, hph] at h
    simp only [transactionStep]
    split
    · exact Or.inl ⟨_, _, by simp [Run.internalError, h.1]; rfl⟩
    · exact ⟨h.1, h.2⟩
  · rename_i hph
    simp only [Run.inv, hph] at h
    simp only [streamStep]
    split
    · exact Or.inl ⟨_, _, by simp [Run.internalError, h.1]; rfl⟩
    · exact Or.inr ⟨_, by simp [Run.answer, h.1]; rfl⟩
  · exact h

theorem step_rank (env : Env) (r : Request) (objects : ObjectStore) (store : Datastore)
    (run : Run) :
    min 4 (run.phase.rank + 1) ≤ (step env r objects store run).1.phase.rank := by
  unfold step
  split
  · rename_i hph
    rw [hph]
    simp only [preCheckStep]
    split_ifs
    · simp [Run.answer, Phase.rank]
    · simp [Run.answer, Phase.rank]
    · simp [Run.answer, Phase.rank]
    · simp [Run.answer, Phase.rank]
    · split
      · simp [Run.internalError, Phase.rank]
      · split
        · split_ifs
          · simp [Run.internalError, Phase.rank]
          · simp [Phase.rank]
        · simp [Run.answer, Phase.rank]
  · rename_i hph
    rw [hph]
    simp only [objectCheckStep]
    split
    · simp [Run.internalError, Phase.rank]
    · split
      · split_ifs
        · simp [Run.answer, Phase.rank]
        · simp [Run.internalError, Phase.rank]
      · simp [Phase.rank]
  · rename_i hph
    rw [hph]
    simp only [transactionStep]
    split
    · simp [Run.internalError, Phase.rank]
    · simp [Phase.rank]
  · rename_i hph
    rw [hph]
    simp only [streamStep]
    split
    · simp [Run.internalError, Phase.rank]
    · simp [Run.answer, Phase.rank]
  · rename_i hph
    rw [hph]
    simp [Phase.rank]

theorem indexHandler_answered (env : Env) (r : Request) (objects : ObjectStore)
    (store : Datastore) : (indexHandler env r objects store).1.answered env := by
  have h0 : Run.inv env Run.init := by simp [Run.inv, Run.init]
  have r0 : Run.init.phase.rank = 0 := rfl
  unfold indexHandler
  simp only
  generalize hs1 : step env r objects store Run.init = s1
  have i1 : Run.inv env s1.1 := by rw [← hs1]; exact step_inv env r objects store _ h0
  have r1 := step_rank env r objects store Run.init
  rw [hs1, r0] at r1
  generalize hs2 : step env r objects s1.2 s1.1 = s2
  have i2 : Run.inv env s2.1 := by rw [← hs2]; exact step_inv env r objects _ _ i1
  have r2 := step_rank env r objects s1.2 s1.1
  rw [hs2] at r2
  generalize hs3 : step env r objects s2.2 s2.1 = s3
  have i3 : Run.inv env s3.1 := by rw [← hs3]; exact step_inv env r objects _ _ i2
  have r3 := step_rank env r objects s2.2 s2.1
  rw [hs3] at r3
  generalize hs4 : step env r objects s3.2 s3.1 = s4
  have i4 : Run.inv env s4.1 := by rw [← hs4]; exact step_inv env r objects _ _ i3
  have r4 := step_rank env r objects s3.2 s3.1
  rw [hs4] at r4
  have hdone : s4.1.phase = .done := by
    have : 4 ≤ s4.1.phase.rank := by omega
    revert this
    cases s4.1.phase <;> simp [Phase.rank]
  simp only [Run.inv, hdone] at i4
  exact i4

/-- Every run of the handler answers, and the answer carries the three headers set at
lines 40-42 as the first value of their names; the `Expires` text is the local wall clock
of the epoch, which is the epoch's HTTP date when the process runs in UTC. -/
theorem no_cache_headers (env : Env) (r : Request) (objects : ObjectStore) (store : Datastore) :
    ∃ resp, (indexHandler env r objects store).1.response = some resp ∧
      Header.Get resp.Header "Cache-Control" = "no-cache, private, max-age=0" ∧
      Header.Get resp.Header "Expires" = expiresText env ∧
      Header.Get resp.Header "Pragma" = "no-cache" ∧
      (∃ extra, Header.Values resp.Header "Cache-Control" =
        "no-cache, private, max-age=0" :: extra) ∧
      (∃ extra, Header.Values resp.Header "Expires" = expiresText env :: extra) ∧
      (∃ extra, Header.Values resp.Header "Pragma" = "no-cache" :: extra) ∧
      ((∀ u res, env.roundTrip u = .ok res → Header.canonical res.Header) →
        Header.Values resp.Header "Expires" = [expiresText env]) ∧
      (env.zoneOffset = 0 → expiresText env = "Thu, 01 Jan 1970 00:00:00 GMT") := by
  have hutc : env.zoneOffset = 0 → expiresText env = "Thu, 01 Jan 1970 00:00:00 GMT" := by
    intro h
    unfold expiresText
    rw [h]
    decide
  rcases indexHandler_answered env r objects store with ⟨msg, code, h⟩ | ⟨u, h⟩
  · obtain ⟨h1, h2, h3⟩ := httpError_noCache env msg code
    exact ⟨_, h, get_of_values _ _ _ _ h1, get_of_values _ _ _ _ h2, get_of_values _ _ _ _ h3,
      ⟨[], h1⟩, ⟨[], h2⟩, ⟨[], h3⟩, fun _ => h2, hutc⟩
  · obtain ⟨⟨x1, h1⟩, ⟨x2, h2⟩, ⟨x3, h3⟩⟩ := proxy_noCache env (env.roundTrip u)
    refine ⟨_, h, get_of_values _ _ _ _ h1, get_of_values _ _ _ _ h2,
      get_of_values _ _ _ _ h3, ⟨x1, h1⟩, ⟨x2, h2⟩, ⟨x3, h3⟩, ?_, hutc⟩
    intro hc
    cases hrt : env.roundTrip u with
    | error e => simp only [reverseProxyServeHTTP]; rfl
    | ok res => exact proxy_expires_exact env res (hc u res hrt)

/-- C8 fails on the code when the process does not run in UTC. `time.Unix(0, 0)` is the
epoch as a local time and `Format(http.TimeFormat)` prints its wall clock followed by the
literal `GMT`: nine hours east of UTC every response, here a streamed 200 and a 404,
carries `Expires: Thu, 01 Jan 1970 09:00:00 GMT`, nine hours after the epoch, whose HTTP
date is `Thu, 01 Jan 1970 00:00:00 GMT`. `Cache-Control` and `Pragma` are as claimed. -/
theorem expires_is_local_time :
    formatHTTPTime 0 0 = "Thu, 01 Jan 1970 00:00:00 GMT" ∧
    (indexHandler tokyoEnv (exampleRequest "report.pdf") [("bucket", "report.pdf")]
        []).1.response.map (fun resp =>
          (resp.StatusCode, Header.Values resp.Header "Expires",
            Header.Get resp.Header "Cache-Control", Header.Get resp.Header "Pragma")) =
      some (200, ["Thu, 01 Jan 1970 09:00:00 GMT"], "no-cache, private, max-age=0",
        "no-cache") ∧
    (indexHandler tokyoEnv (exampleRequest "missing.pdf") [] []).1.response.map (fun resp =>
          (resp.StatusCode, Header.Values resp.Header "Expires",
            Header.Get resp.Header "Cache-Control", Header.Get resp.Header "Pragma")) =
      some (404, ["Thu, 01 Jan 1970 09:00:00 GMT"], "no-cache, private, max-age=0",
        "no-cache") := by
  decide

/-! ## Collaborator failures -/

theorem grantTransaction_fails_iff (env : Env) (r : Request) (store : Datastore)
    (hrec : assocGet store (queryGet r.Query "file") = none) :
    (RunInTransaction env store (grantTransaction env r)).1.isSome =
      (env.txGet.isSome || env.txPut.isSome || env.commit.isSome) := by
  simp only [RunInTransaction, grantTransaction, datastoreGet, hrec]
  cases h1 : env.txGet <;> cases h2 : env.txPut <;> cases h3 : env.commit <;> simp

theorem grantTransaction_quiet (env : Env) (r : Request) (store : Datastore) :
    (RunInTransaction env store (grantTransaction env r)).2.2.any
      (fun e => match e with | .roundTrip _ => true | _ => false) = false := by
  simp only [RunInTransaction, grantTransaction]
  cases hd : datastoreGet env.txGet store (queryGet r.Query "file") with
  | none => cases h3 : env.commit <;> simp
  | some err =>
    by_cases he : err = GoError.ErrNoSuchEntity
    · subst he
      cases h2 : env.txPut <;> cases h3 : env.commit <;> simp
    · simp [he]

theorem RunInTransaction_failed (env : Env) (store : Datastore)
    (f : Datastore → Option GoError × List (String × DownloadLogEntry) × List Event)
    (h : (RunInTransaction env store f).1.isSome) :
    (RunInTransaction env store f).2.1 = store := by
  unfold RunInTransaction at h ⊢
  rcases hf : f store with ⟨oerr, muts, evs⟩
  rw [hf] at h
  cases oerr with
  | some err => rfl
  | none =>
    cases hc : env.commit with
    | some msg => rfl
    | none => simp [hc] at h

theorem indexHandler_failed (env : Env) (r : Request) (objects : ObjectStore)
    (store : Datastore) (hv : r.valid) (hf : collaboratorFails env r objects store) :
    (indexHandler env r objects store).1.response =
      some (httpError (noCacheHeader env) "500 internal error" 500) ∧
    (indexHandler env r objects store).1.streamed = false ∧
    (indexHandler env r objects store).2 = store := by
  obtain ⟨h1, h2, h3, h4⟩ := hv
  have h4' : ¬ (len (queryGet r.Query "file") > 128) := by omega
  rcases hf with hf | ⟨hc, hf⟩ | ⟨hc, hg, hrec, hf⟩
  · obtain ⟨msg, hmsg⟩ := Option.isSome_iff_exists.mp hf
    simp [indexHandler, step, preCheckStep, Run.init, noCache_eq, h1, h2, h3, h4', hmsg,
      Run.internalError, Run.streamed]
  · obtain ⟨msg, hmsg⟩ := Option.isSome_iff_exists.mp hf
    simp [indexHandler, step, preCheckStep, Run.init, noCache_eq, h1, h2, h3, h4', hc, hmsg,
      datastoreGet, Run.internalError, Run.streamed]
  · rcases hf with hf | ⟨hs, hf⟩ | ⟨hs, ha, hobj, hf⟩
    · obtain ⟨msg, hmsg⟩ := Option.isSome_iff_exists.mp hf
      simp [indexHandler, step, preCheckStep, objectCheckStep, Run.init, noCache_eq, h1, h2, h3,
        h4', hc, hg, hrec, hmsg, datastoreGet, Run.internalError, Run.streamed]
    · obtain ⟨msg, hmsg⟩ := Option.isSome_iff_exists.mp hf
      simp [indexHandler, step, preCheckStep, objectCheckStep, Run.init, noCache_eq, h1, h2, h3,
        h4', hc, hg, hs, hrec, hmsg, datastoreGet, objectAttrs, Run.internalError, Run.streamed]
    · have hq := grantTransaction_quiet env r store
      have hst := RunInTransaction_failed env store (grantTransaction env r) hf
      rcases hrt : RunInTransaction env store (grantTransaction env r) with ⟨oerr, store', evs⟩
      rw [hrt] at hf hq hst
      obtain ⟨err, herr⟩ := Option.isSome_iff_exists.mp hf
      simp only at herr hq hst
      subst herr
      subst hst
      simp [indexHandler, step, preCheckStep, objectCheckStep, transactionStep, Run.init,
        noCache_eq, h1, h2, h3, h4', hc, hg, hs, ha, hrec, hobj, hrt, datastoreGet, objectAttrs,
        Run.internalError, Run.streamed]
      simpa using hq

theorem collaboratorFails_congr (env env' : Env) (r : Request) (objects : ObjectStore)
    (store : Datastore) (hsame : env.sameButErrors env')
    (hf : collaboratorFails env r objects store) : collaboratorFails env' r objects store := by
  obtain ⟨_, hb, _, _, e1, e2, e3, e4, e5, e6, e7, _⟩ := hsame
  have n1 : env.datastoreNewClient = none → env'.datastoreNewClient = none := by
    intro h; rw [h] at e1; cases h' : env'.datastoreNewClient <;> simp_all
  have n2 : env.datastoreGet = none → env'.datastoreGet = none := by
    intro h; rw [h] at e2; cases h' : env'.datastoreGet <;> simp_all
  have n3 : env.storageNewClient = none → env'.storageNewClient = none := by
    intro h; rw [h] at e3; cases h' : env'.storageNewClient <;> simp_all
  have n4 : env.attrs = none → env'.attrs = none := by
    intro h; rw [h] at e4; cases h' : env'.attrs <;> simp_all
  rcases hf with hf | ⟨hc, hf⟩ | ⟨hc, hg, hrec, hf⟩
  · exact Or.inl (by rw [← e1]; exact hf)
  · exact Or.inr (Or.inl ⟨n1 hc, by rw [← e2]; exact hf⟩)
  · refine Or.inr (Or.inr ⟨n1 hc, n2 hg, hrec, ?_⟩)
    rcases hf with hf | ⟨hs, hf⟩ | ⟨hs, ha, hobj, hf⟩
    · exact Or.inl (by rw [← e3]; exact hf)
    · exact Or.inr (Or.inl ⟨n3 hs, by rw [← e4]; exact hf⟩)
    · refine Or.inr (Or.inr ⟨n3 hs, n4 ha, by rw [← hb]; exact hobj, ?_⟩)
      rw [grantTransaction_fails_iff env' r store hrec, ← e5, ← e6, ← e7,
        ← grantTransaction_fails_iff env r store hrec]
      exact hf

/-- C9: when a Record Store or Object Store operation of a valid `GET` fails (a client
creation, the pre-check read, the existence check, the grant transaction), the handler
answers 500 with the fixed text `500 internal error` (to which `http.Error` adds a line
break), never reaches the proxy and leaves the Record Store as it was; a run that
differs only in the messages of the collaborators' errors gets the same status, headers
and body. -/
theorem collaborator_failures_opaque (env env' : Env) (r : Request) (objects : ObjectStore)
    (store : Datastore) (hv : r.valid) (hf : collaboratorFails env r objects store)
    (hsame : env.sameButErrors env') :
    (indexHandler env r objects store).1.response =
      some (httpError (noCacheHeader env) "500 internal error" 500) ∧
    (indexHandler env r objects store).1.status = 500 ∧
    (∀ resp, (indexHandler env r objects store).1.response = some resp →
      resp.Body = "500 internal error\n") ∧
    (indexHandler env r objects store).1.streamed = false ∧
    (indexHandler env r objects store).2 = store ∧
    (indexHandler env' r objects store).1.response =
      (indexHandler env r objects store).1.response := by
  obtain ⟨h1, h2, h3⟩ := indexHandler_failed env r objects store hv hf
  obtain ⟨h1', _, _⟩ := indexHandler_failed env' r objects store hv
    (collaboratorFails_congr env env' r objects store hsame hf)
  refine ⟨h1, ?_, ?_, h2, h3, ?_⟩
  · simp [Run.status, h1, httpError]
  · intro resp hresp
    rw [h1] at hresp
    injection hresp with hresp
    rw [← hresp]
    rfl
  · have hz : noCacheHeader env' = noCacheHeader env := by
      simp only [noCacheHeader, expiresText, hsame.2.2.2.1]
    rw [h1, h1', hz]

/-- C9 at a pre-check read that fails, with two different error messages. -/
theorem collaborator_failures_opaque_witness :
    (indexHandler (failingEnv "rpc error: code = PermissionDenied")
      (exampleRequest "report.pdf") [("bucket", "report.pdf")] []).1.status = 500 ∧
    (indexHandler (failingEnv "context deadline exceeded")
      (exampleRequest "report.pdf") [("bucket", "report.pdf")] []).1.response =
    (indexHandler (failingEnv "rpc error: code = PermissionDenied")
      (exampleRequest "report.pdf") [("bucket", "report.pdf")] []).1.response :=
  have h := collaborator_failures_opaque (failingEnv "rpc error: code = PermissionDenied")
    (failingEnv "context deadline exceeded") (exampleRequest "report.pdf")
    [("bucket", "report.pdf")] [] (by decide) (Or.inr (Or.inl ⟨rfl, rfl⟩))
    ⟨rfl, rfl, rfl, rfl, rfl, rfl, rfl, rfl, rfl, rfl, rfl,
      fun u => by simp only [failingEnv, exampleEnv]; cases exampleService u <;> simp⟩
  ⟨h.2.1, h.2.2.2.2.2⟩


/-! ## The Record Store only grows -/

theorem datastoreGet_noSuchEntity (fault : Option String) (store : Datastore) (key : String)
    (h : datastoreGet fault store key = some .ErrNoSuchEntity) : assocGet store key = none := by
  unfold datastoreGet at h
  cases fault with
  | some msg => simp at h
  | none =>
    cases hg : assocGet store key with
    | none => rfl
    | some e => simp [hg] at h

theorem RunInTransaction_store (env : Env) (r : Request) (store : Datastore) :
    (RunInTransaction env store (grantTransaction env r)).2.1 = store ∨
    (assocGet store (queryGet r.Query "file") = none ∧
      (RunInTransaction env store (grantTransaction env r)).2.1 =
        store ++ [(queryGet r.Query "file", grantEntry env r)]) := by
  simp only [RunInTransaction, grantTransaction]
  cases hd : datastoreGet env.txGet store (queryGet r.Query "file") with
  | none => cases h3 : env.commit <;> simp
  | some err =>
    by_cases he : err = GoError.ErrNoSuchEntity
    · subst he
      have hnone := datastoreGet_noSuchEntity _ _ _ hd
      cases h2 : env.txPut <;> cases h3 : env.commit <;>
        simp [hnone, assocPut_of_none]
    · simp [he]

theorem step_store (env : Env) (r : Request) (objects : ObjectStore) (store : Datastore)
    (run : Run) :
    (step env r objects store run).2 = store ∨
    (assocGet store (queryGet r.Query "file") = none ∧
      (step env r objects store run).2 =
        store ++ [(queryGet r.Query "file", grantEntry env r)]) := by
  unfold step
  split
  · exact Or.inl rfl
  · exact Or.inl rfl
  · have h := RunInTransaction_store env r store
    simp only [transactionStep]
    rcases hrt : RunInTransaction env store (grantTransaction env r) with ⟨oerr, store', evs⟩
    rw [hrt] at h
    cases oerr <;> exact h
  · exact Or.inl rfl
  · exact Or.inl rfl

theorem assocGet_append_some {β : Type} (m m' : List (String × β)) (k : String) (v : β)
    (h : assocGet m k = some v) : assocGet (m ++ m') k = some v := by
  rw [assocGet_append, h]

theorem not_mem_keys_of_none {β : Type} (m : List (String × β)) (k : String)
    (h : assocGet m k = none) : k ∉ m.map Prod.fst := by
  induction m with
  | nil => simp
  | cons p rest ih =>
    obtain ⟨k', v⟩ := p
    by_cases hk : k' = k
    · simp [assocGet, hk] at h
    · simp only [assocGet, hk, if_false] at h
      simp only [List.map_cons, List.mem_cons, not_or]
      exact ⟨fun e => hk e.symm, ih h⟩

theorem worldStep_store (w : World) (i : Nat) :
    (w.step i).store = w.store ∨
    ∃ f entry, assocGet w.store f = none ∧ (w.step i).store = w.store ++ [(f, entry)] := by
  unfold World.step
  cases hc : w.clients.get? i with
  | none => exact Or.inl rfl
  | some c =>
    simp only
    rcases step_store c.env c.r w.objects w.store c.run with h | ⟨h1, h2⟩
    · exact Or.inl h
    · exact Or.inr ⟨_, _, h1, h2⟩

theorem worldExec_store (schedule : List Nat) (w : World) :
    (∃ added, (w.exec schedule).store = w.store ++ added) ∧
    (∀ k e, assocGet w.store k = some e → assocGet (w.exec schedule).store k = some e) ∧
    ((w.store.map Prod.fst).Nodup → ((w.exec schedule).store.map Prod.fst).Nodup) := by
  induction schedule generalizing w with
  | nil => exact ⟨⟨[], by simp [World.exec]⟩, fun _ _ h => h, fun h => h⟩
  | cons i rest ih =>
    have hexec : w.exec (i :: rest) = (w.step i).exec rest := rfl
    rw [hexec]
    obtain ⟨⟨added, ha⟩, hpres, hnd⟩ := ih (w.step i)
    rcases worldStep_store w i with h | ⟨f, entry, hnone, h⟩
    · rw [h] at ha hpres hnd
      exact ⟨⟨added, ha⟩, hpres, hnd⟩
    · rw [h] at ha hpres hnd
      refine ⟨⟨[(f, entry)] ++ added, by rw [ha]; simp⟩, ?_, ?_⟩
      · intro k e hk
        exact hpres k e (assocGet_append_some _ _ k e hk)
      · intro hn
        apply hnd
        rw [List.map_append, List.nodup_append]
        refine ⟨hn, by simp, ?_⟩
        intro a ha1 ha2
        simp only [List.map_cons, List.map_nil, List.mem_singleton] at ha2
        subst ha2
        exact not_mem_keys_of_none _ _ hnone ha1

theorem step_preserves (env : Env) (r : Request) (objects : ObjectStore) (store : Datastore)
    (run : Run) (k : String) (e : DownloadLogEntry) (h : assocGet store k = some e) :
    assocGet (step env r objects store run).2 k = some e := by
  rcases step_store env r objects store run with hs | ⟨_, hs⟩
  · rw [hs]; exact h
  · rw [hs]; exact assocGet_append_some _ _ k e h

/-- C6: every Grant Record present before stays, with the same country, region and
timestamp, through one uninterrupted run of the handler and through any interleaving
of the steps of any number of requests, whatever their outcomes; the store only ever
grows at its end, each step leaving it as it is or adding a single record under a
filename that has none at that moment (the transaction's re-read), so that filenames stay
unique. -/
theorem write_once (w : World) (schedule : List Nat) (k : String) (e : DownloadLogEntry)
    (h : assocGet w.store k = some e) :
    assocGet (w.exec schedule).store k = some e ∧
    (∀ env r objects, assocGet (indexHandler env r objects w.store).2 k = some e) ∧
    (∃ added, (w.exec schedule).store = w.store ++ added) ∧
    (∀ i, (w.step i).store = w.store ∨
      ∃ f entry, assocGet w.store f = none ∧ (w.step i).store = w.store ++ [(f, entry)]) ∧
    ((w.store.map Prod.fst).Nodup → ((w.exec schedule).store.map Prod.fst).Nodup) := by
  obtain ⟨hadd, hpres, hnd⟩ := worldExec_store schedule w
  refine ⟨hpres k e h, ?_, hadd, worldStep_store w, hnd⟩
  intro env r objects
  unfold indexHandler
  simp only
  exact step_preserves _ _ _ _ _ k e (step_preserves _ _ _ _ _ k e
    (step_preserves _ _ _ _ _ k e (step_preserves _ _ _ _ _ k e h)))

/-- C6 at two interleaved requests for `report.pdf` on a store that already holds a
record for `old.pdf`. -/
theorem write_once_witness :
    assocGet ({ raceWorld with
        store := [("old.pdf", { Country := "DE", Region := "be", DownloadedAt := 7 })] }.exec
      [0, 1, 0, 1, 0, 1, 0, 1]).store "old.pdf" =
      some { Country := "DE", Region := "be", DownloadedAt := 7 } :=
  (write_once { raceWorld with
      store := [("old.pdf", { Country := "DE", Region := "be", DownloadedAt := 7 })] }
    [0, 1, 0, 1, 0, 1, 0, 1] "old.pdf" { Country := "DE", Region := "be", DownloadedAt := 7 }
    (by decide)).1

/-! ## The lost race -/

/-- C1 fails on the code: two first-time requests for `report.pdf` whose steps alternate
(both pre-check reads before either transaction) both reach the proxy and both get the
upstream 200; nobody is answered 403, while the Grant Record is written once, by the
first transaction. -/
theorem at_most_once_violated :
    (raceWorld.exec [0, 1, 0, 1, 0, 1, 0, 1]).clients.map (fun c => c.run.streamed) =
      [true, true] ∧
    (raceWorld.exec [0, 1, 0, 1, 0, 1, 0, 1]).clients.map (fun c => c.run.status) =
      [200, 200] ∧
    (raceWorld.exec [0, 1, 0, 1, 0, 1, 0, 1]).clients.map (fun c => c.run.phase) =
      [Phase.done, Phase.done] ∧
    (raceWorld.exec [0, 1, 0, 1, 0, 1, 0, 1]).store =
      [("report.pdf", { Country := "SE", Region := "ab", DownloadedAt := 1700000000 })] := by
  decide

/-- C2 fails on the code: the first request passes the pre-check and the object check,
then the second request runs to its end and commits the grant; the first request's
transaction re-reads, finds the record, writes nothing, commits, and the handler goes on
to the proxy and answers the upstream 200 instead of 403. -/
theorem lost_race_streams :
    ((raceWorld.exec [0, 0, 1, 1, 1, 1]).clients.map (fun c => c.run.phase) =
      [Phase.transaction, Phase.done]) ∧
    (raceWorld.exec [0, 0, 1, 1, 1, 1]).store =
      [("report.pdf", { Country := "SE", Region := "ab", DownloadedAt := 1700000001 })] ∧
    (raceWorld.exec [0, 0, 1, 1, 1, 1, 0, 0]).store =
      [("report.pdf", { Country := "SE", Region := "ab", DownloadedAt := 1700000001 })] ∧
    (raceWorld.exec [0, 0, 1, 1, 1, 1, 0, 0]).clients.map (fun c => c.run.events) =
      [[Event.datastoreNewClient "project", Event.datastoreGet "report.pdf",
        Event.storageNewClient, Event.attrs "bucket" "report.pdf",
        Event.runInTransaction "report.pdf", Event.txGet "report.pdf", Event.commit,
        Event.roundTrip reportURL],
       [Event.datastoreNewClient "project", Event.datastoreGet "report.pdf",
        Event.storageNewClient, Event.attrs "bucket" "report.pdf",
        Event.runInTransaction "report.pdf", Event.txGet "report.pdf",
        Event.txPut "report.pdf" { Country := "SE", Region := "ab", DownloadedAt := 1700000001 },
        Event.commit,
        Event.roundTrip reportURL]] ∧
    (raceWorld.exec [0, 0, 1, 1, 1, 1, 0, 0]).clients.map (fun c => c.run.status) =
      [200, 200] := by
  decide

end DownloadTrace
